import Mathlib

/-!
# CuDNNConvolutionOp (src/operator/cudnn_convolution-inl.h)

A shallow embedding of the cuDNN grouped-convolution forward operator.

* Machine integers are natural numbers reduced modulo the width of their C++ type:
  `uint32_t` and mshadow's `index_t` are 32-bit unsigned, `size_t` and `uint64_t` are
  64-bit unsigned.  Every arithmetic result is reduced explicitly (`u32`, `u64`).
* The operator object is a record of its member variables.  Members the constructor
  does not assign keep whatever value the record passed to the constructor holds.
* The cuDNN library and the execution context are the environment.  Every call the
  operator issues is appended to a trace; the status and the out-parameters of a call
  are read from a `Backend` record supplied with each `Forward` invocation.
* `CHECK_EQ` stops the running member function: the remaining statements are
  skipped, and the record and trace are those reached at the failing check.
* `num_group` is a divisor in `Init`; for `num_group = 0` the C++ division is
  undefined, and Lean's `x / 0 = 0` stands in for it.  The properties on offsets
  assume `num_group >= 1`.
* The rank and element-type checks inside `TBlob::get` are outside this file: the
  operands are taken to be of the rank the operator asks for.
-/

namespace CuDNN

/-! ## Machine arithmetic -/

/-- Value of an expression of type `uint32_t` / `index_t` (32-bit unsigned). -/
def u32 (x : Nat) : Nat := x % 2 ^ 32

/-- Value of an expression of type `size_t` / `uint64_t` (64-bit unsigned). -/
def u64 (x : Nat) : Nat := x % 2 ^ 64

/-! ## Compile-time parameters -/

/-- The template parameter `DType`: `sizeof(DType)` and
`mshadow::DataType<DType>::kCudnnFlag`. -/
structure DType where
  sizeof : Nat
  kCudnnFlag : Nat
deriving DecidableEq, Repr

/-- The version macros of `cudnn.h`, which the source tests with `#if`. -/
structure CudnnVersion where
  CUDNN_MAJOR : Nat
  CUDNN_MINOR : Nat
  CUDNN_PATCHLEVEL : Nat
deriving DecidableEq, Repr

/-- The macro `CUDNN_VERSION` of `cudnn.h`:
`CUDNN_MAJOR * 1000 + CUDNN_MINOR * 100 + CUDNN_PATCHLEVEL`. -/
def CudnnVersion.CUDNN_VERSION (v : CudnnVersion) : Nat :=
  v.CUDNN_MAJOR * 1000 + v.CUDNN_MINOR * 100 + v.CUDNN_PATCHLEVEL

/-! ## Data model -/

/-- Modelled from the spec: `ConvolutionParam` is declared in `convolution-inl.h`,
which is not part of the source; these are the fields of the specification's
ConvolutionConfig that the operator reads (kernel, stride, pad, output-channel count,
group count, workspace budget, no-bias flag).  `workspace` is a `uint64_t`; the other
integers are 32-bit. -/
structure ConvolutionParam where
  kernel0 : Nat
  kernel1 : Nat
  stride0 : Nat
  stride1 : Nat
  pad0 : Nat
  pad1 : Nat
  num_filter : Nat
  num_group : Nat
  workspace : Nat
  no_bias : Bool
deriving DecidableEq, Repr

/-- Modelled from the spec: `TBlob` and the tensor views are declared outside the
source; an operand is what the operator reads of it, its shape (entries of type
`index_t`) and the answer of `CheckContiguous()` on the view taken from it. -/
structure TBlob where
  shape_ : List Nat
  contiguous : Bool
deriving DecidableEq, Repr

instance : Inhabited TBlob := ⟨⟨[], false⟩⟩

/-- The expression `t.shape_[i]`. -/
def TBlob.dim (t : TBlob) (i : Nat) : Nat := t.shape_.getD i 0

/-- The five descriptor members of the operator. -/
inductive Desc where
  | in_desc_
  | out_desc_
  | bias_desc_
  | filter_desc_
  | conv_desc_
deriving DecidableEq, Repr

/-- A call issued by the operator, with the arguments the source passes.  Descriptor
arguments are the handle values held in the members, buffer arguments are element
offsets from the operand's `dptr_`, scale factors are the literals 0 and 1. -/
inductive Call where
  | cudnnCreateTensorDescriptor (member : Desc)
  | cudnnCreateFilterDescriptor (member : Desc)
  | cudnnCreateConvolutionDescriptor (member : Desc)
  | cudnnSetFilter4dDescriptor (filterDesc dtype : Nat) (format : Option Nat) (k c h w : Nat)
  | cudnnSetConvolution2dDescriptor (convDesc pad_h pad_w u v upscalex upscaley : Nat)
  | cudnnSetTensor4dDescriptorEx (desc dtype n c h w nStride cStride hStride wStride : Nat)
  | cudnnSetTensor4dDescriptor (desc dtype n c h w : Nat)
  | cudnnGetConvolutionForwardAlgorithm (inDesc filterDesc convDesc outDesc : Nat)
      (memoryLimitInBytes : Nat)
  | cudnnGetConvolutionForwardWorkspaceSize (inDesc filterDesc convDesc outDesc : Nat)
      (algo : Nat)
  | get_space_typed (size : Nat)
  | cudnnConvolutionForward (alpha inDesc dataOffset filterDesc weightOffset convDesc algo
      workSpaceSizeInBytes beta outDesc outOffset : Nat)
  | cudnnAddTensor (sameC : Bool) (alpha biasDesc biasOffset beta outDesc outOffset : Nat)
  | cudnnDestroyTensorDescriptor (desc : Nat)
  | cudnnDestroyFilterDescriptor (desc : Nat)
  | cudnnDestroyConvolutionDescriptor (desc : Nat)
deriving DecidableEq, Repr

/-- What the cuDNN library answers: the status of each call (`true` is
`CUDNN_STATUS_SUCCESS`) and the values it stores through out-parameters. -/
structure Backend where
  status : Call → Bool
  descriptor : Desc → Nat
  algo : Nat → Nat
  workspaceSize : Nat → Nat

/-- The arguments of one `Forward` invocation that the operator reads: the cuDNN
library behind the stream, whether the stream owns its cuDNN handle, and the operand
vectors. -/
structure ForwardArgs where
  backend : Backend
  ownHandle : Bool
  in_data : List TBlob
  out_data : List TBlob

/-- The operand `in_data[conv::kData]`. -/
def ForwardArgs.data (a : ForwardArgs) : TBlob := a.in_data.getD 0 default

/-- The operand `in_data[conv::kWeight]`. -/
def ForwardArgs.wmat (a : ForwardArgs) : TBlob := a.in_data.getD 1 default

/-- The operand `in_data[conv::kBias]`. -/
def ForwardArgs.bias (a : ForwardArgs) : TBlob := a.in_data.getD 2 default

/-- The operand `out_data[conv::kOut]`. -/
def ForwardArgs.out (a : ForwardArgs) : TBlob := a.out_data.getD 0 default

/-- The member variables of `CuDNNConvolutionOp<DType>`. -/
structure CuDNNConvolutionOp where
  init_cudnn_ : Bool
  forward_workspace_ : Nat
  forward_workspace_byte_ : Nat
  data_offset_ : Nat
  out_offset_ : Nat
  weight_offset_ : Nat
  bias_offset_ : Nat
  dtype_ : Nat
  in_desc_ : Nat
  out_desc_ : Nat
  bias_desc_ : Nat
  filter_desc_ : Nat
  conv_desc_ : Nat
  algo_ : Nat
  format_ : Nat
  param_ : ConvolutionParam
deriving DecidableEq, Repr

/-- The checks whose failure stops a member function. -/
inductive Failure where
  | in_data_size
  | out_data_size
  | data_contiguous
  | wmat_contiguous
  | out_contiguous
  | handle_ownership
  | cudnn_status
deriving DecidableEq, Repr

/-- Whether a member function is still running or was stopped by a failed check. -/
inductive Status where
  | ok
  | failed (f : Failure)
deriving DecidableEq, Repr

/-- The machine state while a member function runs: the operator object, the calls
issued so far, and the status. -/
structure Run where
  op : CuDNNConvolutionOp
  trace : List Call
  status : Status
deriving DecidableEq, Repr

/-- The statement `CHECK_EQ(cond, true)`. -/
def Run.check (r : Run) (cond : Bool) (f : Failure) : Run :=
  match r.status with
  | .ok => if cond then r else { r with status := .failed f }
  | .failed _ => r

/-- An assignment to member variables. -/
def Run.assign (r : Run) (f : CuDNNConvolutionOp → CuDNNConvolutionOp) : Run :=
  match r.status with
  | .ok => { r with op := f r.op }
  | .failed _ => r

/-- The statement `CHECK_EQ(call(...), CUDNN_STATUS_SUCCESS)`: the call is issued, and
the function stops unless the library reports success. -/
def Run.cudnn (r : Run) (be : Backend) (c : CuDNNConvolutionOp → Call) : Run :=
  match r.status with
  | .ok =>
    { r with
      trace := r.trace ++ [c r.op]
      status := if be.status (c r.op) then .ok else .failed .cudnn_status }
  | .failed _ => r

/-- A call whose result is not checked. -/
def Run.request (r : Run) (c : CuDNNConvolutionOp → Call) : Run :=
  match r.status with
  | .ok => { r with trace := r.trace ++ [c r.op] }
  | .failed _ => r

/-- The statement `if (cond) { body }`. -/
def Run.when (r : Run) (cond : CuDNNConvolutionOp → Bool) (body : Run → Run) : Run :=
  match r.status with
  | .ok => if cond r.op then body r else r
  | .failed _ => r

/-- The value of `CUDNN_TENSOR_NCHW`. -/
def CUDNN_TENSOR_NCHW : Nat := 0

/-! ## The operator -/

/-- The constructor (source lines 19-26). -/
def CuDNNConvolutionOp.new (T : DType) (param : ConvolutionParam)
    (mem : CuDNNConvolutionOp) : CuDNNConvolutionOp :=
  { mem with
    param_ := { param with workspace := u64 (u64 (param.workspace * 2 ^ 20) / T.sizeof) }
    init_cudnn_ := false
    dtype_ := T.kCudnnFlag }

/-- The local `workspace_byte` of `Init` (source line 125). -/
def workspace_byte (T : DType) (op : CuDNNConvolutionOp) : Nat :=
  u64 (op.param_.workspace * T.sizeof)

/-- The value assigned to `data_offset_` (source line 128). -/
def dataOffset (p : ConvolutionParam) (data : TBlob) : Nat :=
  u32 (u32 (data.dim 1 / p.num_group * data.dim 2) * data.dim 3)

/-- The value assigned to `out_offset_` (source line 129). -/
def outOffset (p : ConvolutionParam) (out : TBlob) : Nat :=
  u32 (u32 (out.dim 1 / p.num_group * out.dim 2) * out.dim 3)

/-- The value assigned to `weight_offset_` (source lines 130-131), evaluated left to
right in 32-bit unsigned arithmetic. -/
def weightOffset (p : ConvolutionParam) (data : TBlob) : Nat :=
  u32 (u32 (u32 (p.num_filter / p.num_group * data.dim 1) / p.num_group * p.kernel0)
    * p.kernel1)

/-- The value assigned to `bias_offset_` (source line 183). -/
def biasOffset (p : ConvolutionParam) (bias : TBlob) : Nat :=
  bias.dim 0 / p.num_group

/-- The block guarded by `if (!init_cudnn_)` in `Init` (source lines 124-208). -/
def InitBody (T : DType) (v : CudnnVersion) (a : ForwardArgs) (r : Run) : Run :=
  let be := a.backend
  let data := a.data
  let out := a.out
  let bias := a.bias
  let r := r.assign fun op => { op with init_cudnn_ := true }
  let r := r.assign fun op => { op with data_offset_ := dataOffset op.param_ data }
  let r := r.assign fun op => { op with out_offset_ := outOffset op.param_ out }
  let r := r.assign fun op => { op with weight_offset_ := weightOffset op.param_ data }
  let r := r.cudnn be fun _ => .cudnnCreateTensorDescriptor .in_desc_
  let r := r.assign fun op => { op with in_desc_ := be.descriptor .in_desc_ }
  let r := r.cudnn be fun _ => .cudnnCreateTensorDescriptor .out_desc_
  let r := r.assign fun op => { op with out_desc_ := be.descriptor .out_desc_ }
  let r := r.cudnn be fun _ => .cudnnCreateTensorDescriptor .bias_desc_
  let r := r.assign fun op => { op with bias_desc_ := be.descriptor .bias_desc_ }
  let r := r.cudnn be fun _ => .cudnnCreateFilterDescriptor .filter_desc_
  let r := r.assign fun op => { op with filter_desc_ := be.descriptor .filter_desc_ }
  let r := r.cudnn be fun _ => .cudnnCreateConvolutionDescriptor .conv_desc_
  let r := r.assign fun op => { op with conv_desc_ := be.descriptor .conv_desc_ }
  let r := r.cudnn be fun op =>
    .cudnnSetFilter4dDescriptor op.filter_desc_ op.dtype_
      (if v.CUDNN_MAJOR = 5 then some op.format_ else none)
      (op.param_.num_filter / op.param_.num_group) (data.dim 1 / op.param_.num_group)
      op.param_.kernel0 op.param_.kernel1
  let r := r.cudnn be fun op =>
    .cudnnSetConvolution2dDescriptor op.conv_desc_ op.param_.pad0 op.param_.pad1
      op.param_.stride0 op.param_.stride1 1 1
  let r := r.cudnn be fun op =>
    .cudnnSetTensor4dDescriptorEx op.in_desc_ op.dtype_
      (data.dim 0) (data.dim 1 / op.param_.num_group) (data.dim 2) (data.dim 3)
      (u32 (u32 (data.dim 1 * data.dim 2) * data.dim 3)) (u32 (data.dim 2 * data.dim 3))
      (data.dim 3) 1
  let r := r.cudnn be fun op =>
    .cudnnSetTensor4dDescriptorEx op.out_desc_ op.dtype_
      (out.dim 0) (out.dim 1 / op.param_.num_group) (out.dim 2) (out.dim 3)
      (u32 (u32 (out.dim 1 * out.dim 2) * out.dim 3)) (u32 (out.dim 2 * out.dim 3))
      (out.dim 3) 1
  let r := r.when (fun op => !op.param_.no_bias) fun r =>
    let r := r.assign fun op => { op with bias_offset_ := biasOffset op.param_ bias }
    r.cudnn be fun op =>
      .cudnnSetTensor4dDescriptor op.bias_desc_ op.dtype_ 1
        (bias.dim 0 / op.param_.num_group) 1 1
  let r := r.check a.ownHandle .handle_ownership
  let r := r.cudnn be fun op =>
    .cudnnGetConvolutionForwardAlgorithm op.in_desc_ op.filter_desc_ op.conv_desc_
      op.out_desc_ (workspace_byte T op)
  let r := r.assign fun op => { op with algo_ := be.algo (workspace_byte T op) }
  let r := r.cudnn be fun op =>
    .cudnnGetConvolutionForwardWorkspaceSize op.in_desc_ op.filter_desc_ op.conv_desc_
      op.out_desc_ op.algo_
  let r := r.assign fun op =>
    { op with forward_workspace_byte_ := u64 (be.workspaceSize op.algo_) }
  r.assign fun op =>
    { op with forward_workspace_ := u64 (op.forward_workspace_byte_ / T.sizeof + 1) }

/-- The member function `Init` (source lines 113-210). -/
def Init (T : DType) (v : CudnnVersion) (a : ForwardArgs) (r : Run) : Run :=
  let r := r.when (fun _ => v.CUDNN_MAJOR = 5) fun r =>
    r.assign fun op => { op with format_ := CUDNN_TENSOR_NCHW }
  let r := r.check (a.in_data.length = if r.op.param_.no_bias then 2 else 3) .in_data_size
  let r := r.check (a.out_data.length = 1) .out_data_size
  r.when (fun op => !op.init_cudnn_) (InitBody T v a)

/-- One iteration of the group loop of `Forward` (source lines 61-98). -/
def groupBody (v : CudnnVersion) (be : Backend) (g : Nat) (r : Run) : Run :=
  let r := r.cudnn be fun op =>
    .cudnnConvolutionForward 1 op.in_desc_ (u64 (op.data_offset_ * g)) op.filter_desc_
      (u64 (op.weight_offset_ * g)) op.conv_desc_ op.algo_ op.forward_workspace_byte_ 0
      op.out_desc_ (u64 (op.out_offset_ * g))
  r.when (fun op => !op.param_.no_bias) fun r =>
    let r := r.when (fun _ => 4 ≤ v.CUDNN_MAJOR) fun r =>
      r.cudnn be fun op =>
        .cudnnAddTensor false 1 op.bias_desc_ (u64 (op.bias_offset_ * g)) 1
          op.out_desc_ (u64 (op.out_offset_ * g))
    r.when (fun _ => v.CUDNN_MAJOR = 3 ∨ v.CUDNN_VERSION = 2000) fun r =>
      r.cudnn be fun op =>
        .cudnnAddTensor true 1 op.bias_desc_ (u64 (op.bias_offset_ * g)) 1
          op.out_desc_ (u64 (op.out_offset_ * g))

/-- The group loop of `Forward` (source lines 60-99). -/
def groupLoop (v : CudnnVersion) (be : Backend) (r : Run) : Run :=
  (List.range r.op.param_.num_group).foldl (fun r g => groupBody v be g r) r

/-- The member function `Forward` (source lines 38-100), started on the operator `op`
with an empty trace.  `mshadow::Shape1` takes an `index_t`, so the element count of
the workspace request is `forward_workspace_` narrowed to 32 bits. -/
def Forward (T : DType) (v : CudnnVersion) (a : ForwardArgs) (op : CuDNNConvolutionOp) :
    Run :=
  let data := a.data
  let wmat := a.wmat
  let out := a.out
  let r : Run := { op := op, trace := [], status := .ok }
  let r := r.check (a.in_data.length = if op.param_.no_bias then 2 else 3) .in_data_size
  let r := r.check (a.out_data.length = 1) .out_data_size
  let r := r.check data.contiguous .data_contiguous
  let r := r.check wmat.contiguous .wmat_contiguous
  let r := r.check out.contiguous .out_contiguous
  let r := r.when (fun op => !op.init_cudnn_) (Init T v a)
  let r := r.request fun op => .get_space_typed (u32 op.forward_workspace_)
  groupLoop v a.backend r

/-- The destructor (source lines 28-36). -/
def CuDNNConvolutionOp.delete (be : Backend) (op : CuDNNConvolutionOp) : Run :=
  let r : Run := { op := op, trace := [], status := .ok }
  r.when (fun op => op.init_cudnn_) fun r =>
    let r := r.cudnn be fun op => .cudnnDestroyTensorDescriptor op.in_desc_
    let r := r.cudnn be fun op => .cudnnDestroyTensorDescriptor op.out_desc_
    let r := r.cudnn be fun op => .cudnnDestroyTensorDescriptor op.bias_desc_
    let r := r.cudnn be fun op => .cudnnDestroyFilterDescriptor op.filter_desc_
    r.cudnn be fun op => .cudnnDestroyConvolutionDescriptor op.conv_desc_

/-! ## Derived descriptions used to state the properties -/

/-- The environment of a `Forward` invocation in which nothing fails: the library
reports `CUDNN_STATUS_SUCCESS` for every call and the stream owns its handle. -/
def ForwardArgs.succeeds (a : ForwardArgs) : Prop :=
  (∀ c, a.backend.status c = true) ∧ a.ownHandle = true

/-- The five operand checks at the head of `Forward` (source lines 44-53), for an
operator configured with `p`. -/
def operandChecks (p : ConvolutionParam) (a : ForwardArgs) : Bool :=
  decide (a.in_data.length = if p.no_bias then 2 else 3) &&
  decide (a.out_data.length = 1) &&
  a.data.contiguous && a.wmat.contiguous && a.out.contiguous

/-- The member values after a complete run of the guarded block of `Init`. -/
def initOp (T : DType) (v : CudnnVersion) (a : ForwardArgs) (op : CuDNNConvolutionOp) :
    CuDNNConvolutionOp :=
  let be := a.backend
  let data := a.data
  let out := a.out
  let bias := a.bias
  let algo := be.algo (workspace_byte T op)
  let bytes := u64 (be.workspaceSize algo)
  { op with
    init_cudnn_ := true
    data_offset_ := dataOffset op.param_ data
    out_offset_ := outOffset op.param_ out
    weight_offset_ := weightOffset op.param_ data
    bias_offset_ := if op.param_.no_bias then op.bias_offset_ else biasOffset op.param_ bias
    in_desc_ := be.descriptor .in_desc_
    out_desc_ := be.descriptor .out_desc_
    bias_desc_ := be.descriptor .bias_desc_
    filter_desc_ := be.descriptor .filter_desc_
    conv_desc_ := be.descriptor .conv_desc_
    algo_ := algo
    forward_workspace_byte_ := bytes
    forward_workspace_ := u64 (bytes / T.sizeof + 1)
    format_ := if v.CUDNN_MAJOR = 5 then CUDNN_TENSOR_NCHW else op.format_ }

/-- The calls issued by a complete run of the guarded block of `Init`. -/
def initCalls (T : DType) (v : CudnnVersion) (a : ForwardArgs) (op : CuDNNConvolutionOp) :
    List Call :=
  let be := a.backend
  let data := a.data
  let out := a.out
  let bias := a.bias
  let p := op.param_
  let d := be.descriptor
  [ .cudnnCreateTensorDescriptor .in_desc_,
    .cudnnCreateTensorDescriptor .out_desc_,
    .cudnnCreateTensorDescriptor .bias_desc_,
    .cudnnCreateFilterDescriptor .filter_desc_,
    .cudnnCreateConvolutionDescriptor .conv_desc_,
    .cudnnSetFilter4dDescriptor (d .filter_desc_) op.dtype_
      (if v.CUDNN_MAJOR = 5 then some CUDNN_TENSOR_NCHW else none)
      (p.num_filter / p.num_group) (data.dim 1 / p.num_group) p.kernel0 p.kernel1,
    .cudnnSetConvolution2dDescriptor (d .conv_desc_) p.pad0 p.pad1 p.stride0 p.stride1 1 1,
    .cudnnSetTensor4dDescriptorEx (d .in_desc_) op.dtype_
      (data.dim 0) (data.dim 1 / p.num_group) (data.dim 2) (data.dim 3)
      (u32 (u32 (data.dim 1 * data.dim 2) * data.dim 3)) (u32 (data.dim 2 * data.dim 3))
      (data.dim 3) 1,
    .cudnnSetTensor4dDescriptorEx (d .out_desc_) op.dtype_
      (out.dim 0) (out.dim 1 / p.num_group) (out.dim 2) (out.dim 3)
      (u32 (u32 (out.dim 1 * out.dim 2) * out.dim 3)) (u32 (out.dim 2 * out.dim 3))
      (out.dim 3) 1 ] ++
  (if p.no_bias then []
   else [.cudnnSetTensor4dDescriptor (d .bias_desc_) op.dtype_ 1
          (bias.dim 0 / p.num_group) 1 1]) ++
  [ .cudnnGetConvolutionForwardAlgorithm (d .in_desc_) (d .filter_desc_) (d .conv_desc_)
      (d .out_desc_) (workspace_byte T op),
    .cudnnGetConvolutionForwardWorkspaceSize (d .in_desc_) (d .filter_desc_) (d .conv_desc_)
      (d .out_desc_) (be.algo (workspace_byte T op)) ]

/-- The calls one complete iteration of the group loop issues for group `g`. -/
def groupCalls (v : CudnnVersion) (op : CuDNNConvolutionOp) (g : Nat) : List Call :=
  [ .cudnnConvolutionForward 1 op.in_desc_ (u64 (op.data_offset_ * g)) op.filter_desc_
      (u64 (op.weight_offset_ * g)) op.conv_desc_ op.algo_ op.forward_workspace_byte_ 0
      op.out_desc_ (u64 (op.out_offset_ * g)) ] ++
  (if op.param_.no_bias then []
   else
    (if 4 ≤ v.CUDNN_MAJOR then
      [ .cudnnAddTensor false 1 op.bias_desc_ (u64 (op.bias_offset_ * g)) 1
          op.out_desc_ (u64 (op.out_offset_ * g)) ]
     else []) ++
    (if v.CUDNN_MAJOR = 3 ∨ v.CUDNN_VERSION = 2000 then
      [ .cudnnAddTensor true 1 op.bias_desc_ (u64 (op.bias_offset_ * g)) 1
          op.out_desc_ (u64 (op.out_offset_ * g)) ]
     else []))

/-- The calls a complete group loop issues. -/
def execCalls (v : CudnnVersion) (op : CuDNNConvolutionOp) : List Call :=
  (List.range op.param_.num_group).flatMap (groupCalls v op)

/-- Successive `Forward` invocations on one operator: each starts on the operator
object the previous one left behind, also when that one was stopped by a failed
check (runs that end at the first failure are the initial segments of these). -/
def forwards (T : DType) (v : CudnnVersion) :
    List ForwardArgs → CuDNNConvolutionOp → List Run
  | [], _ => []
  | a :: rest, op => Forward T v a op :: forwards T v rest (Forward T v a op).op

/-- The operator object after successive `Forward` invocations. -/
def opAfter (T : DType) (v : CudnnVersion) :
    List ForwardArgs → CuDNNConvolutionOp → CuDNNConvolutionOp
  | [], op => op
  | a :: rest, op => opAfter T v rest (Forward T v a op).op

/-- The calls issued by successive `Forward` invocations, in order. -/
def traceOf (T : DType) (v : CudnnVersion) (cs : List ForwardArgs)
    (op : CuDNNConvolutionOp) : List Call :=
  (forwards T v cs op).flatMap Run.trace

/-- The calls issued over the lifetime of one operator: construction (which issues
none), the `Forward` invocations `cs`, and destruction with the library `be`. -/
def lifetime (T : DType) (v : CudnnVersion) (param : ConvolutionParam)
    (mem : CuDNNConvolutionOp) (cs : List ForwardArgs) (be : Backend) : List Call :=
  traceOf T v cs (CuDNNConvolutionOp.new T param mem) ++
    (CuDNNConvolutionOp.delete be (opAfter T v cs (CuDNNConvolutionOp.new T param mem))).trace

/-- The operand failures, in the order `Forward` tests them. -/
def operandFailures : List Failure :=
  [.in_data_size, .out_data_size, .data_contiguous, .wmat_contiguous, .out_contiguous]

/-- Calls that create a descriptor. -/
def Call.isCreate : Call → Bool
  | .cudnnCreateTensorDescriptor _ => true
  | .cudnnCreateFilterDescriptor _ => true
  | .cudnnCreateConvolutionDescriptor _ => true
  | _ => false

/-- Calls that destroy a descriptor. -/
def Call.isDestroy : Call → Bool
  | .cudnnDestroyTensorDescriptor _ => true
  | .cudnnDestroyFilterDescriptor _ => true
  | .cudnnDestroyConvolutionDescriptor _ => true
  | _ => false

/-- The execution calls of the library: forward convolution and tensor add. -/
def Call.isExec : Call → Bool
  | .cudnnConvolutionForward .. => true
  | .cudnnAddTensor .. => true
  | _ => false

/-- The calls of the guarded block of `Init`: descriptor creation, descriptor
configuration and the two algorithm queries. -/
def Call.isInit : Call → Bool
  | .cudnnCreateTensorDescriptor _ => true
  | .cudnnCreateFilterDescriptor _ => true
  | .cudnnCreateConvolutionDescriptor _ => true
  | .cudnnSetFilter4dDescriptor .. => true
  | .cudnnSetConvolution2dDescriptor .. => true
  | .cudnnSetTensor4dDescriptorEx .. => true
  | .cudnnSetTensor4dDescriptor .. => true
  | .cudnnGetConvolutionForwardAlgorithm .. => true
  | .cudnnGetConvolutionForwardWorkspaceSize .. => true
  | _ => false

/-- The element counts requested from the context by the calls of a trace. -/
def requestedSizes : List Call → List Nat
  | [] => []
  | .get_space_typed n :: rest => n :: requestedSizes rest
  | _ :: rest => requestedSizes rest

/-- The workspace byte counts handed to the forward-convolution calls of a trace. -/
def handedBytes : List Call → List Nat
  | [] => []
  | .cudnnConvolutionForward _ _ _ _ _ _ _ b _ _ _ :: rest => b :: handedBytes rest
  | _ :: rest => handedBytes rest

/-- The byte limits passed to the algorithm queries of a trace. -/
def memoryLimits : List Call → List Nat
  | [] => []
  | .cudnnGetConvolutionForwardAlgorithm _ _ _ _ b :: rest => b :: memoryLimits rest
  | _ :: rest => memoryLimits rest

/-- The calls `Forward` can issue: those of `Init`, the workspace request and the
execution calls. -/
def Call.isForward (c : Call) : Prop :=
  c.isInit = true ∨ c.isExec = true ∨ ∃ n, c = .get_space_typed n

/-- The run `r2` continues the run `r1`: it issued the calls of `r1` followed by calls
satisfying `P`, kept `param_`, did not reset `init_cudnn_`, and stopped, if at
all, where `r1` had stopped or at a library status or handle-ownership check. -/
structure Run.Continues (P : Call → Prop) (r1 r2 : Run) : Prop where
  trace : ∃ l, r2.trace = r1.trace ++ l ∧ ∀ c ∈ l, P c
  init : r1.op.init_cudnn_ = true → r2.op.init_cudnn_ = true
  param : r2.op.param_ = r1.op.param_
  status : r2.status = r1.status ∨ r2.status = .failed .cudnn_status ∨
    r2.status = .failed .handle_ownership

/-! ## Tensor addressing (for the output partition) -/

/-- The shape and strides given to `cudnnSetTensor4dDescriptorEx`. -/
structure TensorDesc where
  n : Nat
  c : Nat
  h : Nat
  w : Nat
  nStride : Nat
  cStride : Nat
  hStride : Nat
  wStride : Nat
deriving DecidableEq, Repr

/-- The shape and strides `Init` gives `out_desc_` (source lines 171-180). -/
def outDesc (p : ConvolutionParam) (out : TBlob) : TensorDesc :=
  { n := out.dim 0
    c := out.dim 1 / p.num_group
    h := out.dim 2
    w := out.dim 3
    nStride := u32 (u32 (out.dim 1 * out.dim 2) * out.dim 3)
    cStride := u32 (out.dim 2 * out.dim 3)
    hStride := out.dim 3
    wStride := 1 }

/-- Modelled from the spec: the library is not part of the source; the element
offsets a call touches when it is handed the descriptor `d` and a pointer `base`
elements into the buffer are `base + n * nStride + c * cStride + h * hStride +
w * wStride` for every coordinate inside the descriptor's shape. -/
def TensorDesc.indices (d : TensorDesc) (base : Nat) : List Nat :=
  (List.range d.n).flatMap fun n =>
    (List.range d.c).flatMap fun c =>
      (List.range d.h).flatMap fun h =>
        (List.range d.w).map fun w =>
          base + n * d.nStride + c * d.cStride + h * d.hStride + w * d.wStride

/-- The flat output indices written by iteration `g` of the group loop: the
descriptor `out_desc_` applied at `out.dptr_ + out_offset_ * g` (source lines 74-75). -/
def groupWrites (p : ConvolutionParam) (out : TBlob) (g : Nat) : List Nat :=
  (outDesc p out).indices (u64 (outOffset p out * g))

/-! ## Concrete values -/

/-- The element type `float`. -/
def float32 : DType := { sizeof := 4, kCudnnFlag := 0 }

/-- The library version cuDNN 2.0.0. -/
def cudnnV2 : CudnnVersion := { CUDNN_MAJOR := 2, CUDNN_MINOR := 0, CUDNN_PATCHLEVEL := 0 }

/-- The library version cuDNN 4.0.7. -/
def cudnnV4 : CudnnVersion := { CUDNN_MAJOR := 4, CUDNN_MINOR := 0, CUDNN_PATCHLEVEL := 7 }

/-- The memory an operator is constructed in, holding arbitrary member values. -/
def zeroMem : CuDNNConvolutionOp :=
  { init_cudnn_ := true, forward_workspace_ := 0, forward_workspace_byte_ := 0,
    data_offset_ := 0, out_offset_ := 0, weight_offset_ := 0, bias_offset_ := 0, dtype_ := 0,
    in_desc_ := 0, out_desc_ := 0, bias_desc_ := 0, filter_desc_ := 0, conv_desc_ := 0,
    algo_ := 0, format_ := 0,
    param_ :=
      { kernel0 := 0, kernel1 := 0, stride0 := 0, stride1 := 0, pad0 := 0, pad1 := 0,
        num_filter := 0, num_group := 0, workspace := 0, no_bias := false } }

/-- The scenario of the specification: kernel 3x3, stride 1, pad 1, two groups, four
filters, a budget of 512 MiB, with bias. -/
def cfgGroups2 : ConvolutionParam :=
  { kernel0 := 3, kernel1 := 3, stride0 := 1, stride1 := 1, pad0 := 1, pad1 := 1,
    num_filter := 4, num_group := 2, workspace := 512, no_bias := false }

/-- The same scenario without bias. -/
def cfgNoBias : ConvolutionParam := { cfgGroups2 with no_bias := true }

/-- A configuration whose channel counts are large: 1048576 filters of size 1x1 in 16
groups. -/
def cfgLarge : ConvolutionParam :=
  { kernel0 := 1, kernel1 := 1, stride0 := 1, stride1 := 1, pad0 := 0, pad1 := 0,
    num_filter := 1048576, num_group := 16, workspace := 512, no_bias := true }

/-- A library that reports success for every call, hands out the handles 1 to 5,
selects algorithm 1 and reports that it needs no workspace. -/
def okBackend : Backend :=
  { status := fun _ => true
    descriptor := fun d =>
      match d with
      | .in_desc_ => 1
      | .out_desc_ => 2
      | .bias_desc_ => 3
      | .filter_desc_ => 4
      | .conv_desc_ => 5
    algo := fun _ => 1
    workspaceSize := fun _ => 0 }

/-- A library like `okBackend` whose selected algorithm needs exactly the byte limit
it was given, for the budget of 512 MiB. -/
def fullBackend : Backend := { okBackend with workspaceSize := fun _ => 536870912 }

/-- The operands of the scenario: data 1x4x8x8, weight 4x2x3x3, bias 4, output
1x4x8x8, all contiguous. -/
def args3 : ForwardArgs :=
  { backend := okBackend
    ownHandle := true
    in_data := [⟨[1, 4, 8, 8], true⟩, ⟨[4, 2, 3, 3], true⟩, ⟨[4], true⟩]
    out_data := [⟨[1, 4, 8, 8], true⟩] }

/-- The operands of the scenario without the bias operand. -/
def args2 : ForwardArgs := { args3 with in_data := [⟨[1, 4, 8, 8], true⟩, ⟨[4, 2, 3, 3], true⟩] }

/-- The operands `args3` on a library whose algorithm uses the whole byte limit. -/
def args3Full : ForwardArgs := { args3 with backend := fullBackend }

/-- Operands of other shapes than the scenario: data 2x8x16x16, weight 4x4x3x3,
bias 4, output 2x4x16x16. -/
def argsOther : ForwardArgs :=
  { backend := fullBackend
    ownHandle := true
    in_data := [⟨[2, 8, 16, 16], true⟩, ⟨[4, 4, 3, 3], true⟩, ⟨[4], true⟩]
    out_data := [⟨[2, 4, 16, 16], true⟩] }

/-! ## The execution trace as the specification words it -/

/-- The forward-convolution call of group `g`: scale factors 1 and 0, the operand
pointers advanced by `g` times the cached offsets. -/
def convCall (op : CuDNNConvolutionOp) (g : Nat) : Call :=
  .cudnnConvolutionForward 1 op.in_desc_ (u64 (op.data_offset_ * g)) op.filter_desc_
    (u64 (op.weight_offset_ * g)) op.conv_desc_ op.algo_ op.forward_workspace_byte_ 0
    op.out_desc_ (u64 (op.out_offset_ * g))

/-- The tensor-add call of group `g`: scale factors 1 and 1, the bias pointer advanced
by `g * bias_offset_`, the output pointer of the convolution call.  `sameC` tells
whether the call takes the mode argument `CUDNN_ADD_SAME_C` of the older interface. -/
def addCall (sameC : Bool) (op : CuDNNConvolutionOp) (g : Nat) : Call :=
  .cudnnAddTensor sameC 1 op.bias_desc_ (u64 (op.bias_offset_ * g)) 1 op.out_desc_
    (u64 (op.out_offset_ * g))

/-- The execution calls as claim C5 states them: for each group in increasing order one
convolution call, followed by one tensor-add call if and only if `no_bias` is false
and the major version is at least 3. -/
def claimedExecCalls (v : CudnnVersion) (op : CuDNNConvolutionOp) : List Call :=
  (List.range op.param_.num_group).flatMap fun g =>
    convCall op g ::
      (if op.param_.no_bias = false ∧ 3 ≤ v.CUDNN_MAJOR then
        [addCall (decide (v.CUDNN_MAJOR < 4)) op g]
       else [])

/-- The execution calls as the amended claim C5 states them: the tensor-add call
follows if and only if `no_bias` is false and the major version is at least 3 or the
version is 2000. -/
def amendedExecCalls (v : CudnnVersion) (op : CuDNNConvolutionOp) : List Call :=
  (List.range op.param_.num_group).flatMap fun g =>
    convCall op g ::
      (if op.param_.no_bias = false ∧ (3 ≤ v.CUDNN_MAJOR ∨ v.CUDNN_VERSION = 2000) then
        [addCall (decide (v.CUDNN_MAJOR < 4)) op g]
       else [])

/-- The byte count stored in `forward_workspace_byte_` by `Init`: what the library
reports for the algorithm it selected under the limit `workspace_byte`. -/
def reportedBytes (T : DType) (a : ForwardArgs) (op : CuDNNConvolutionOp) : Nat :=
  u64 (a.backend.workspaceSize (a.backend.algo (workspace_byte T op)))

/-- A data operand with 65536 channels of size 1x1. -/
def dataLarge : TBlob := { shape_ := [1, 65536, 1, 1], contiguous := true }

/-! ## Lemmas on runs -/

@[simp] theorem Run.check_op (r : Run) (c : Bool) (f : Failure) : (r.check c f).op = r.op := by
  unfold Run.check; split <;> [split; skip] <;> rfl

@[simp] theorem Run.check_trace (r : Run) (c : Bool) (f : Failure) :
    (r.check c f).trace = r.trace := by
  unfold Run.check; split <;> [split; skip] <;> rfl

@[simp] theorem Run.assign_trace (r : Run) (f : CuDNNConvolutionOp → CuDNNConvolutionOp) :
    (r.assign f).trace = r.trace := by
  unfold Run.assign; split <;> rfl

@[simp] theorem Run.cudnn_op (r : Run) (be : Backend) (c : CuDNNConvolutionOp → Call) :
    (r.cudnn be c).op = r.op := by
  unfold Run.cudnn; split <;> rfl

@[simp] theorem Run.request_op (r : Run) (c : CuDNNConvolutionOp → Call) :
    (r.request c).op = r.op := by
  unfold Run.request; split <;> rfl

theorem Run.when_op (r : Run) (c : CuDNNConvolutionOp → Bool) (body : Run → Run)
    (h : ∀ r, (body r).op = r.op) : (r.when c body).op = r.op := by
  unfold Run.when; split <;> [split; skip] <;> simp [h]

@[simp] theorem groupBody_op (v : CudnnVersion) (be : Backend) (g : Nat) (r : Run) :
    (groupBody v be g r).op = r.op := by
  unfold groupBody
  simp [Run.when_op]

theorem foldl_groupBody_op (v : CudnnVersion) (be : Backend) (l : List Nat) (r : Run) :
    (l.foldl (fun r g => groupBody v be g r) r).op = r.op := by
  induction l generalizing r with
  | nil => rfl
  | cons g l ih => simp [List.foldl_cons, ih]

@[simp] theorem groupLoop_op (v : CudnnVersion) (be : Backend) (r : Run) :
    (groupLoop v be r).op = r.op := foldl_groupBody_op v be _ r

theorem Init_of_succeeds (T : DType) (v : CudnnVersion) (a : ForwardArgs)
    (op : CuDNNConvolutionOp) (tr : List Call) (hs : a.succeeds)
    (hin : a.in_data.length = if op.param_.no_bias then 2 else 3)
    (hout : a.out_data.length = 1) (hi : op.init_cudnn_ = false) :
    Init T v a ⟨op, tr, .ok⟩ = ⟨initOp T v a op, tr ++ initCalls T v a op, .ok⟩ := by
  obtain ⟨hst, hown⟩ := hs
  by_cases h5 : v.CUDNN_MAJOR = 5 <;> cases hb : op.param_.no_bias <;>
    simp [Init, InitBody, Run.when, Run.check, Run.assign, Run.cudnn, hst, hown, hin, hout, hi,
      h5, hb, initOp, initCalls, workspace_byte]

theorem Run.when_neg (r : Run) (c : CuDNNConvolutionOp → Bool) (body : Run → Run)
    (h : c r.op = false) : r.when c body = r := by
  unfold Run.when; split <;> simp [h]

theorem Forward_op_of_init (T : DType) (v : CudnnVersion) (a : ForwardArgs)
    (op : CuDNNConvolutionOp) (hi : op.init_cudnn_ = true) : (Forward T v a op).op = op := by
  unfold Forward
  simp only [groupLoop_op, Run.request_op]
  rw [Run.when_neg _ _ _ (by simp [hi])]
  simp

theorem groupBody_of_failed (v : CudnnVersion) (be : Backend) (g : Nat)
    (op : CuDNNConvolutionOp) (tr : List Call) (f : Failure) :
    groupBody v be g ⟨op, tr, .failed f⟩ = ⟨op, tr, .failed f⟩ := by
  simp [groupBody, Run.cudnn, Run.when]

theorem groupLoop_of_failed (v : CudnnVersion) (be : Backend)
    (op : CuDNNConvolutionOp) (tr : List Call) (f : Failure) :
    groupLoop v be ⟨op, tr, .failed f⟩ = ⟨op, tr, .failed f⟩ := by
  unfold groupLoop
  generalize List.range _ = l
  induction l with
  | nil => rfl
  | cons g l ih => simp [List.foldl_cons, groupBody_of_failed, ih]

theorem groupBody_of_succeeds (v : CudnnVersion) (be : Backend) (g : Nat)
    (op : CuDNNConvolutionOp) (tr : List Call) (hs : ∀ c, be.status c = true) :
    groupBody v be g ⟨op, tr, .ok⟩ = ⟨op, tr ++ groupCalls v op g, .ok⟩ := by
  by_cases h4 : 4 ≤ v.CUDNN_MAJOR <;> by_cases h3 : (v.CUDNN_MAJOR = 3 ∨ v.CUDNN_VERSION = 2000)
    <;> cases hb : op.param_.no_bias <;>
    simp [groupBody, groupCalls, Run.cudnn, Run.when, hs, h4, h3, hb]

theorem foldl_groupBody_of_succeeds (v : CudnnVersion) (be : Backend) (l : List Nat)
    (op : CuDNNConvolutionOp) (tr : List Call) (hs : ∀ c, be.status c = true) :
    l.foldl (fun r g => groupBody v be g r) ⟨op, tr, .ok⟩ =
      ⟨op, tr ++ l.flatMap (groupCalls v op), .ok⟩ := by
  induction l generalizing tr with
  | nil => simp
  | cons g l ih => simp [List.foldl_cons, groupBody_of_succeeds _ _ _ _ _ hs, ih]

theorem groupLoop_of_succeeds (v : CudnnVersion) (be : Backend)
    (op : CuDNNConvolutionOp) (tr : List Call) (hs : ∀ c, be.status c = true) :
    groupLoop v be ⟨op, tr, .ok⟩ = ⟨op, tr ++ execCalls v op, .ok⟩ :=
  foldl_groupBody_of_succeeds v be _ op tr hs

theorem Forward_of_checks_false (T : DType) (v : CudnnVersion) (a : ForwardArgs)
    (op : CuDNNConvolutionOp) (h : operandChecks op.param_ a = false) :
    ∃ f ∈ operandFailures, Forward T v a op = ⟨op, [], .failed f⟩ := by
  by_cases h1 : a.in_data.length = if op.param_.no_bias then 2 else 3
  · by_cases h2 : a.out_data.length = 1
    · cases h3 : a.data.contiguous
      · exact ⟨.data_contiguous, by simp [operandFailures], by
          simp [Forward, Run.check, Run.when, Run.request, groupLoop_of_failed, h1, h2, h3]⟩
      · cases h4 : a.wmat.contiguous
        · exact ⟨.wmat_contiguous, by simp [operandFailures], by
            simp [Forward, Run.check, Run.when, Run.request, groupLoop_of_failed, h1, h2, h3, h4]⟩
        · cases h5 : a.out.contiguous
          · exact ⟨.out_contiguous, by simp [operandFailures], by
              simp [Forward, Run.check, Run.when, Run.request, groupLoop_of_failed,
                h1, h2, h3, h4, h5]⟩
          · simp [operandChecks, h1, h2, h3, h4, h5] at h
    · exact ⟨.out_data_size, by simp [operandFailures], by
        simp [Forward, Run.check, Run.when, Run.request, groupLoop_of_failed, h1, h2]⟩
  · exact ⟨.in_data_size, by simp [operandFailures], by
      simp [Forward, Run.check, Run.when, Run.request, groupLoop_of_failed, h1]⟩

theorem operandChecks_iff (p : ConvolutionParam) (a : ForwardArgs) :
    operandChecks p a = true ↔
      a.in_data.length = (if p.no_bias then 2 else 3) ∧ a.out_data.length = 1 ∧
      a.data.contiguous = true ∧
      a.wmat.contiguous = true ∧
      a.out.contiguous = true := by
  simp [operandChecks, and_assoc]

theorem Forward_first (T : DType) (v : CudnnVersion) (a : ForwardArgs)
    (op : CuDNNConvolutionOp) (hc : operandChecks op.param_ a = true) (hs : a.succeeds)
    (hi : op.init_cudnn_ = false) :
    Forward T v a op =
      ⟨initOp T v a op,
        initCalls T v a op ++ [.get_space_typed (u32 (initOp T v a op).forward_workspace_)] ++
          execCalls v (initOp T v a op), .ok⟩ := by
  obtain ⟨h1, h2, h3, h4, h5⟩ := (operandChecks_iff _ _).1 hc
  have hI := Init_of_succeeds T v a op [] hs h1 h2 hi
  simp only [Forward, Run.check, h1, h2, h3, h4, h5, Run.when, hi, decide_True, if_true,
    Bool.not_false, hI, Run.request]
  rw [groupLoop_of_succeeds _ _ _ _ hs.1]
  simp

theorem Forward_later (T : DType) (v : CudnnVersion) (a : ForwardArgs)
    (op : CuDNNConvolutionOp) (hc : operandChecks op.param_ a = true)
    (hs : ∀ c, a.backend.status c = true) (hi : op.init_cudnn_ = true) :
    Forward T v a op =
      ⟨op, [.get_space_typed (u32 op.forward_workspace_)] ++ execCalls v op, .ok⟩ := by
  obtain ⟨h1, h2, h3, h4, h5⟩ := (operandChecks_iff _ _).1 hc
  simp only [Forward, Run.check, h1, h2, h3, h4, h5, Run.when, hi, decide_True, if_true,
    Bool.not_true, Run.request, Bool.false_eq_true, if_false]
  rw [groupLoop_of_succeeds _ _ _ _ hs]
  simp


theorem Run.Continues.refl (P : Call → Prop) (r : Run) : Run.Continues P r r :=
  ⟨⟨[], by simp⟩, id, rfl, Or.inl rfl⟩

theorem Run.Continues.trans {P : Call → Prop} {r1 r2 r3 : Run}
    (h12 : Run.Continues P r1 r2) (h23 : Run.Continues P r2 r3) : Run.Continues P r1 r3 := by
  obtain ⟨l1, e1, p1⟩ := h12.trace
  obtain ⟨l2, e2, p2⟩ := h23.trace
  refine ⟨⟨l1 ++ l2, by rw [e2, e1, List.append_assoc], ?_⟩, fun h => h23.init (h12.init h),
    h23.param.trans h12.param, ?_⟩
  · intro c hc
    rcases List.mem_append.1 hc with h | h
    · exact p1 c h
    · exact p2 c h
  · rcases h23.status with h | h | h
    · rw [h]; exact h12.status
    · exact Or.inr (Or.inl h)
    · exact Or.inr (Or.inr h)

theorem Run.Continues.assign {P : Call → Prop} {r x : Run}
    (f : CuDNNConvolutionOp → CuDNNConvolutionOp) (h : Run.Continues P r x)
    (hp : ∀ op, (f op).param_ = op.param_)
    (hi : ∀ op, op.init_cudnn_ = true → (f op).init_cudnn_ = true) :
    Run.Continues P r (x.assign f) := by
  refine h.trans ?_
  unfold Run.assign
  split
  · exact ⟨⟨[], by simp⟩, hi _, hp _, Or.inl rfl⟩
  · exact Run.Continues.refl P x

theorem Run.Continues.cudnn {P : Call → Prop} {r x : Run} (be : Backend)
    (c : CuDNNConvolutionOp → Call) (h : Run.Continues P r x) (hc : ∀ op, P (c op)) :
    Run.Continues P r (x.cudnn be c) := by
  refine h.trans ?_
  unfold Run.cudnn
  split
  · next hs =>
    refine ⟨⟨[c x.op], rfl, by simpa using hc x.op⟩, id, rfl, ?_⟩
    by_cases hb : be.status (c x.op) = true
    · simp [hb, hs]
    · simp [hb]
  · exact Run.Continues.refl P x

theorem Run.Continues.request {P : Call → Prop} {r x : Run}
    (c : CuDNNConvolutionOp → Call) (h : Run.Continues P r x) (hc : ∀ op, P (c op)) :
    Run.Continues P r (x.request c) := by
  refine h.trans ?_
  unfold Run.request
  split
  · exact ⟨⟨[c x.op], rfl, by simpa using hc x.op⟩, id, rfl, Or.inl rfl⟩
  · exact Run.Continues.refl P x

theorem Run.Continues.check_handle {P : Call → Prop} {r x : Run} (cond : Bool)
    (h : Run.Continues P r x) : Run.Continues P r (x.check cond .handle_ownership) := by
  refine h.trans ?_
  unfold Run.check
  split
  · by_cases hc : cond = true
    · simp only [hc, if_true]; exact Run.Continues.refl P x
    · simp only [hc]
      exact ⟨⟨[], by simp⟩, id, rfl, Or.inr (Or.inr rfl)⟩
  · exact Run.Continues.refl P x

theorem Run.Continues.when {P : Call → Prop} {r x : Run} (cond : CuDNNConvolutionOp → Bool)
    (body : Run → Run) (h : Run.Continues P r x)
    (hb : ∀ y, Run.Continues P r y → Run.Continues P r (body y)) :
    Run.Continues P r (x.when cond body) := by
  unfold Run.when
  split
  · split
    · exact hb x h
    · exact h
  · exact h

theorem groupBody_continues (v : CudnnVersion) (be : Backend) (g : Nat) (r : Run) :
    Run.Continues (fun c => c.isExec = true) r (groupBody v be g r) := by
  unfold groupBody
  refine Run.Continues.when _ _ ?_ fun y hy => ?_
  · exact Run.Continues.cudnn _ _ (Run.Continues.refl _ _) fun _ => rfl
  · refine Run.Continues.when _ _ ?_ fun z hz => ?_
    · exact Run.Continues.when _ _ hy fun z hz => Run.Continues.cudnn _ _ hz fun _ => rfl
    · exact Run.Continues.cudnn _ _ hz fun _ => rfl

theorem groupLoop_continues (v : CudnnVersion) (be : Backend) (r : Run) :
    Run.Continues (fun c => c.isExec = true) r (groupLoop v be r) := by
  unfold groupLoop
  generalize List.range _ = l
  induction l generalizing r with
  | nil => exact Run.Continues.refl _ _
  | cons g l ih => exact (groupBody_continues v be g r).trans (ih _)

theorem InitBody_continues (T : DType) (v : CudnnVersion) (a : ForwardArgs) (r : Run) :
    ∃ x : Run, x.trace = r.trace ∧ x.status = r.status ∧ x.op.param_ = r.op.param_ ∧
      (r.status = .ok → x.op.init_cudnn_ = true) ∧
      Run.Continues (fun c => c.isInit = true)
        (x.cudnn a.backend fun _ => .cudnnCreateTensorDescriptor .in_desc_)
        (InitBody T v a r) := by
  refine ⟨(((r.assign fun op => { op with init_cudnn_ := true }).assign fun op =>
      { op with data_offset_ := dataOffset op.param_ a.data }).assign fun op =>
      { op with out_offset_ := outOffset op.param_ a.out }).assign fun op =>
      { op with weight_offset_ := weightOffset op.param_ a.data }, ?_, ?_, ?_, ?_, ?_⟩
  · simp
  · obtain ⟨op, tr, st⟩ := r; cases st <;> rfl
  · obtain ⟨op, tr, st⟩ := r; cases st <;> rfl
  · obtain ⟨op, tr, st⟩ := r; rintro ⟨⟩; rfl
  · unfold InitBody
    refine Run.Continues.assign _ ?_ (fun _ => rfl) (fun _ h => h)
    refine Run.Continues.assign _ ?_ (fun _ => rfl) (fun _ h => h)
    refine Run.Continues.cudnn _ _ ?_ (fun _ => rfl)
    refine Run.Continues.assign _ ?_ (fun _ => rfl) (fun _ h => h)
    refine Run.Continues.cudnn _ _ ?_ (fun _ => rfl)
    refine Run.Continues.check_handle _ ?_
    refine Run.Continues.when _ _ ?_ fun y hy =>
      Run.Continues.cudnn _ _ (Run.Continues.assign _ hy (fun _ => rfl) (fun _ h => h))
        (fun _ => rfl)
    refine Run.Continues.cudnn _ _ ?_ (fun _ => rfl)
    refine Run.Continues.cudnn _ _ ?_ (fun _ => rfl)
    refine Run.Continues.cudnn _ _ ?_ (fun _ => rfl)
    refine Run.Continues.cudnn _ _ ?_ (fun _ => rfl)
    refine Run.Continues.assign _ ?_ (fun _ => rfl) (fun _ h => h)
    refine Run.Continues.cudnn _ _ ?_ (fun _ => rfl)
    refine Run.Continues.assign _ ?_ (fun _ => rfl) (fun _ h => h)
    refine Run.Continues.cudnn _ _ ?_ (fun _ => rfl)
    refine Run.Continues.assign _ ?_ (fun _ => rfl) (fun _ h => h)
    refine Run.Continues.cudnn _ _ ?_ (fun _ => rfl)
    refine Run.Continues.assign _ ?_ (fun _ => rfl) (fun _ h => h)
    refine Run.Continues.cudnn _ _ ?_ (fun _ => rfl)
    refine Run.Continues.assign _ ?_ (fun _ => rfl) (fun _ h => h)
    exact Run.Continues.refl _ _

theorem Run.Continues.mono {P Q : Call → Prop} {r1 r2 : Run} (hPQ : ∀ c, P c → Q c)
    (h : Run.Continues P r1 r2) : Run.Continues Q r1 r2 := by
  obtain ⟨l, e, p⟩ := h.trace
  exact ⟨⟨l, e, fun c hc => hPQ c (p c hc)⟩, h.init, h.param, h.status⟩

theorem Init_eq_InitBody (T : DType) (v : CudnnVersion) (a : ForwardArgs)
    (op : CuDNNConvolutionOp) (tr : List Call)
    (hin : a.in_data.length = if op.param_.no_bias then 2 else 3)
    (hout : a.out_data.length = 1) (hi : op.init_cudnn_ = false) :
    Init T v a ⟨op, tr, .ok⟩ =
      InitBody T v a
        ⟨if v.CUDNN_MAJOR = 5 then { op with format_ := CUDNN_TENSOR_NCHW } else op, tr, .ok⟩ := by
  by_cases h5 : v.CUDNN_MAJOR = 5 <;>
    simp [Init, Run.when, Run.check, Run.assign, hin, hout, hi, h5]

theorem Forward_uninit (T : DType) (v : CudnnVersion) (a : ForwardArgs)
    (op : CuDNNConvolutionOp) (hc : operandChecks op.param_ a = true)
    (hi : op.init_cudnn_ = false) :
    (∃ l, (Forward T v a op).trace = .cudnnCreateTensorDescriptor .in_desc_ :: l ∧
      ∀ c ∈ l, c.isForward) ∧
    (Forward T v a op).op.init_cudnn_ = true ∧
    (Forward T v a op).op.param_ = op.param_ ∧
    ((Forward T v a op).status = .ok ∨ (Forward T v a op).status = .failed .cudnn_status ∨
      (Forward T v a op).status = .failed .handle_ownership) := by
  obtain ⟨h1, h2, h3, h4, h5⟩ := (operandChecks_iff _ _).1 hc
  have hI := Init_eq_InitBody T v a op [] h1 h2 hi
  obtain ⟨x, hxt, hxs, hxp, hxi, hcont⟩ := InitBody_continues T v a
    ⟨if v.CUDNN_MAJOR = 5 then { op with format_ := CUDNN_TENSOR_NCHW } else op, [], .ok⟩
  have hF : Forward T v a op = groupLoop v a.backend
      ((InitBody T v a
        ⟨if v.CUDNN_MAJOR = 5 then { op with format_ := CUDNN_TENSOR_NCHW } else op, [], .ok⟩).request
        fun op => .get_space_typed (u32 op.forward_workspace_)) := by
    simp only [Forward, Run.check, h1, h2, h3, h4, h5, Run.when, hi, decide_True, if_true,
      Bool.not_false, hI]
  have hall : Run.Continues Call.isForward
      (x.cudnn a.backend fun _ => .cudnnCreateTensorDescriptor .in_desc_) (Forward T v a op) := by
    rw [hF]
    refine Run.Continues.trans ?_ ((groupLoop_continues v a.backend _).mono
      fun c h => Or.inr (Or.inl h))
    exact Run.Continues.request _ (hcont.mono fun c h => Or.inl h) fun op => Or.inr (Or.inr ⟨_, rfl⟩)
  have hb : (x.cudnn a.backend fun _ => Call.cudnnCreateTensorDescriptor .in_desc_).trace =
      [.cudnnCreateTensorDescriptor .in_desc_] := by
    simp [Run.cudnn, hxs, hxt]
  have hbs : (x.cudnn a.backend fun _ => Call.cudnnCreateTensorDescriptor .in_desc_).status = .ok ∨
      (x.cudnn a.backend fun _ => Call.cudnnCreateTensorDescriptor .in_desc_).status =
        .failed .cudnn_status := by
    simp only [Run.cudnn, hxs]
    by_cases hb : a.backend.status (.cudnnCreateTensorDescriptor .in_desc_) = true <;> simp [hb]
  have hbo : (x.cudnn a.backend fun _ => Call.cudnnCreateTensorDescriptor .in_desc_).op = x.op := by
    simp
  refine ⟨?_, ?_, ?_, ?_⟩
  · obtain ⟨l, e, p⟩ := hall.trace
    exact ⟨l, by rw [e, hb]; rfl, p⟩
  · exact hall.init (by rw [hbo]; exact hxi rfl)
  · rw [hall.param, hbo, hxp]; split <;> rfl
  · rcases hall.status with h | h | h
    · rcases hbs with h' | h'
      · exact Or.inl (h.trans h')
      · exact Or.inr (Or.inl (h.trans h'))
    · exact Or.inr (Or.inl h)
    · exact Or.inr (Or.inr h)

theorem Forward_init (T : DType) (v : CudnnVersion) (a : ForwardArgs)
    (op : CuDNNConvolutionOp) (hc : operandChecks op.param_ a = true)
    (hi : op.init_cudnn_ = true) :
    (∃ l, (Forward T v a op).trace = .get_space_typed (u32 op.forward_workspace_) :: l ∧
      ∀ c ∈ l, c.isExec = true) ∧
    ((Forward T v a op).status = .ok ∨ (Forward T v a op).status = .failed .cudnn_status ∨
      (Forward T v a op).status = .failed .handle_ownership) := by
  obtain ⟨h1, h2, h3, h4, h5⟩ := (operandChecks_iff _ _).1 hc
  have hF : Forward T v a op = groupLoop v a.backend
      ⟨op, [.get_space_typed (u32 op.forward_workspace_)], .ok⟩ := by
    simp only [Forward, Run.check, h1, h2, h3, h4, h5, Run.when, hi, decide_True, if_true,
      Bool.not_true, Run.request, Bool.false_eq_true, if_false, List.nil_append]
  have hcont := groupLoop_continues v a.backend
    ⟨op, [.get_space_typed (u32 op.forward_workspace_)], .ok⟩
  rw [← hF] at hcont
  refine ⟨?_, ?_⟩
  · obtain ⟨l, e, p⟩ := hcont.trace
    exact ⟨l, by rw [e]; rfl, p⟩
  · exact hcont.status

theorem Forward_trace_of_init (T : DType) (v : CudnnVersion) (a : ForwardArgs)
    (op : CuDNNConvolutionOp) (hi : op.init_cudnn_ = true) :
    ∀ c ∈ (Forward T v a op).trace, c.isExec = true ∨ ∃ n, c = .get_space_typed n := by
  intro c hc
  cases hch : operandChecks op.param_ a
  · obtain ⟨f, -, e⟩ := Forward_of_checks_false T v a op hch
    rw [e] at hc
    simp at hc
  · obtain ⟨⟨l, e, p⟩, -⟩ := Forward_init T v a op hch hi
    rw [e] at hc
    rcases List.mem_cons.1 hc with h | h
    · exact Or.inr ⟨_, h⟩
    · exact Or.inl (p c h)

theorem opAfter_of_init (T : DType) (v : CudnnVersion) (cs : List ForwardArgs)
    (op : CuDNNConvolutionOp) (hi : op.init_cudnn_ = true) : opAfter T v cs op = op := by
  induction cs with
  | nil => rfl
  | cons a cs ih => simp only [opAfter, Forward_op_of_init T v a op hi, ih]

theorem forwards_of_init (T : DType) (v : CudnnVersion) (cs : List ForwardArgs)
    (op : CuDNNConvolutionOp) (hi : op.init_cudnn_ = true) :
    ∀ r ∈ forwards T v cs op, r.op = op ∧
      ∀ c ∈ r.trace, c.isExec = true ∨ ∃ n, c = .get_space_typed n := by
  induction cs with
  | nil => simp [forwards]
  | cons a cs ih =>
    intro r hr
    simp only [forwards, List.mem_cons, Forward_op_of_init T v a op hi] at hr
    rcases hr with rfl | hr
    · exact ⟨Forward_op_of_init T v a op hi, Forward_trace_of_init T v a op hi⟩
    · exact ih r hr

theorem traceOf_of_init (T : DType) (v : CudnnVersion) (cs : List ForwardArgs)
    (op : CuDNNConvolutionOp) (hi : op.init_cudnn_ = true) :
    ∀ c ∈ traceOf T v cs op, c.isExec = true ∨ ∃ n, c = .get_space_typed n := by
  intro c hc
  obtain ⟨r, hr, hcr⟩ := List.mem_flatMap.1 hc
  exact (forwards_of_init T v cs op hi r hr).2 c hcr

theorem traceOf_append (T : DType) (v : CudnnVersion) (l1 l2 : List ForwardArgs)
    (op : CuDNNConvolutionOp) :
    traceOf T v (l1 ++ l2) op = traceOf T v l1 op ++ traceOf T v l2 (opAfter T v l1 op) := by
  induction l1 generalizing op with
  | nil => simp [traceOf, forwards, opAfter]
  | cons a l1 ih =>
    have := ih (Forward T v a op).op
    simp only [traceOf] at this ⊢
    simp [forwards, opAfter, this]

theorem opAfter_append (T : DType) (v : CudnnVersion) (l1 l2 : List ForwardArgs)
    (op : CuDNNConvolutionOp) :
    opAfter T v (l1 ++ l2) op = opAfter T v l2 (opAfter T v l1 op) := by
  induction l1 generalizing op with
  | nil => rfl
  | cons a l1 ih => simp [opAfter, ih]

theorem opAfter_of_checks_false (T : DType) (v : CudnnVersion) (cs : List ForwardArgs)
    (op : CuDNNConvolutionOp) (h : ∀ a ∈ cs, operandChecks op.param_ a = false) :
    opAfter T v cs op = op ∧ traceOf T v cs op = [] := by
  induction cs with
  | nil => simp [opAfter, traceOf, forwards]
  | cons a cs ih =>
    obtain ⟨f, -, e⟩ := Forward_of_checks_false T v a op (h a (List.mem_cons_self _ _))
    have ih' := ih fun b hb => h b (List.mem_cons_of_mem _ hb)
    simp only [traceOf] at ih' ⊢
    simp [opAfter, forwards, e, ih']

theorem filter_eq_nil_of_forall {α : Type} (p : α → Bool) (l : List α)
    (h : ∀ x ∈ l, p x = false) : l.filter p = [] := by
  rw [List.filter_eq_nil_iff]
  intro x hx
  simp [h x hx]

theorem isInit_of_mem_initCalls (T : DType) (v : CudnnVersion) (a : ForwardArgs)
    (op : CuDNNConvolutionOp) : ∀ c ∈ initCalls T v a op, c.isInit = true := by
  cases hb : op.param_.no_bias <;> simp [initCalls, hb, Call.isInit]

theorem isExec_of_mem_execCalls (v : CudnnVersion) (op : CuDNNConvolutionOp) :
    ∀ c ∈ execCalls v op, c.isExec = true := by
  intro c hc
  obtain ⟨g, -, hg⟩ := List.mem_flatMap.1 hc
  simp only [groupCalls, List.mem_append, List.mem_singleton] at hg
  rcases hg with h | h
  · subst h; rfl
  · split at h
    · simp at h
    · rcases List.mem_append.1 h with h | h <;> split at h <;> simp at h <;> subst h <;> rfl

/-! ## The claims -/

/-- C3: `Forward` stops with a precondition failure, with no call issued and the
operator object unchanged, whenever the number of input operands differs from 2
(`no_bias`) or 3 (otherwise), the number of outputs differs from 1, or the data,
weight or output view is not contiguous; in particular three operands are rejected
by a `no_bias` operator.  Conversely, when all five checks hold `Forward` does not
stop at an operand check: an uninitialised operator sets `init_cudnn_` and issues the
first call of `Init`, an initialised one issues the workspace request. -/
theorem C3_operand_checks (T : DType) (v : CudnnVersion) (a : ForwardArgs)
    (op : CuDNNConvolutionOp) :
    ((a.in_data.length ≠ (if op.param_.no_bias then 2 else 3) ∨ a.out_data.length ≠ 1 ∨
        a.data.contiguous = false ∨ a.wmat.contiguous = false ∨ a.out.contiguous = false) →
      ∃ f ∈ operandFailures, Forward T v a op = ⟨op, [], .failed f⟩) ∧
    (op.param_.no_bias = true → a.in_data.length = 3 →
      Forward T v a op = ⟨op, [], .failed .in_data_size⟩) ∧
    ((a.in_data.length = (if op.param_.no_bias then 2 else 3) ∧ a.out_data.length = 1 ∧
        a.data.contiguous = true ∧ a.wmat.contiguous = true ∧ a.out.contiguous = true) →
      (∀ f ∈ operandFailures, (Forward T v a op).status ≠ .failed f) ∧
      (op.init_cudnn_ = false →
        (Forward T v a op).trace.head? = some (.cudnnCreateTensorDescriptor .in_desc_) ∧
        (Forward T v a op).op.init_cudnn_ = true) ∧
      (op.init_cudnn_ = true →
        (Forward T v a op).trace.head? = some (.get_space_typed (u32 op.forward_workspace_)) ∧
        (Forward T v a op).op = op)) := by
  refine ⟨fun h => ?_, fun hb h3 => ?_, fun h => ?_⟩
  · apply Forward_of_checks_false
    rw [← Bool.not_eq_true, operandChecks_iff]
    rintro ⟨h1, h2, h3, h4, h5⟩
    rcases h with h | h | h | h | h
    · exact h h1
    · exact h h2
    · rw [h3] at h; cases h
    · rw [h4] at h; cases h
    · rw [h5] at h; cases h
  · simp [Forward, Run.check, Run.when, Run.request, groupLoop_of_failed, hb, h3]
  · have hc : operandChecks op.param_ a = true := (operandChecks_iff _ _).2 h
    have hst : (Forward T v a op).status = .ok ∨ (Forward T v a op).status = .failed .cudnn_status ∨
        (Forward T v a op).status = .failed .handle_ownership := by
      cases hi : op.init_cudnn_
      · exact (Forward_uninit T v a op hc hi).2.2.2
      · exact (Forward_init T v a op hc hi).2
    refine ⟨fun f hf hs => ?_, fun hi => ?_, fun hi => ?_⟩
    · rcases hst with h' | h' | h' <;> rw [h'] at hs <;> cases hs <;>
        simp [operandFailures] at hf
    · obtain ⟨⟨l, e, -⟩, hinit, -⟩ := Forward_uninit T v a op hc hi
      exact ⟨by rw [e]; rfl, hinit⟩
    · obtain ⟨⟨l, e, -⟩, -⟩ := Forward_init T v a op hc hi
      exact ⟨by rw [e]; rfl, Forward_op_of_init T v a op hi⟩

/-- Witness of C3: three operands given to a `no_bias` operator are rejected with no
call issued and the operator unchanged. -/
theorem C3_operand_checks_witness :
    Forward float32 cudnnV4 args3 (CuDNNConvolutionOp.new float32 cfgNoBias zeroMem) =
      ⟨CuDNNConvolutionOp.new float32 cfgNoBias zeroMem, [], .failed .in_data_size⟩ :=
  (C3_operand_checks float32 cudnnV4 args3
    (CuDNNConvolutionOp.new float32 cfgNoBias zeroMem)).2.1 rfl rfl

theorem isInit_eq_false_of_isExec (c : Call) (h : c.isExec = true) : c.isInit = false := by
  cases c <;> first | rfl | cases h

theorem isCreate_eq_false_of_isExec (c : Call) (h : c.isExec = true) : c.isCreate = false := by
  cases c <;> first | rfl | cases h

theorem isDestroy_eq_false_of_isExec (c : Call) (h : c.isExec = true) :
    c.isDestroy = false := by
  cases c <;> first | rfl | cases h

theorem filter_isInit_execCalls (v : CudnnVersion) (op : CuDNNConvolutionOp) :
    (execCalls v op).filter Call.isInit = [] :=
  filter_eq_nil_of_forall _ _ fun c hc =>
    isInit_eq_false_of_isExec c (isExec_of_mem_execCalls v op c hc)

theorem filter_isInit_of_init (T : DType) (v : CudnnVersion) (a : ForwardArgs)
    (op : CuDNNConvolutionOp) (hi : op.init_cudnn_ = true) :
    (Forward T v a op).trace.filter Call.isInit = [] := by
  apply filter_eq_nil_of_forall
  intro c hc
  rcases Forward_trace_of_init T v a op hi c hc with h | ⟨n, rfl⟩
  · exact isInit_eq_false_of_isExec c h
  · rfl

theorem map_filter_isInit_forwards (T : DType) (v : CudnnVersion) (cs : List ForwardArgs)
    (op : CuDNNConvolutionOp) (hi : op.init_cudnn_ = true) :
    (forwards T v cs op).map (fun r => r.trace.filter Call.isInit) = cs.map (fun _ => []) := by
  induction cs with
  | nil => rfl
  | cons a cs ih =>
    simp only [forwards, List.map_cons, Forward_op_of_init T v a op hi, ih,
      filter_isInit_of_init T v a op hi]

/-- C2: for every operator and every sequence of one or more `Forward` invocations
whose first passes the operand checks in an environment where nothing fails, the
guarded block of `Init` executes exactly once, during the first invocation:
`init_cudnn_` is false after construction, true after the first and after every
later invocation; the calls of the block appear, complete, in the first invocation
and none of them in a later one; a `Forward` that passes the operand checks issues
calls of the block exactly when `init_cudnn_` is false on entry; and no `Forward`
makes a true `init_cudnn_` false. -/
theorem C2_init_runs_exactly_once (T : DType) (v : CudnnVersion) (param : ConvolutionParam)
    (mem : CuDNNConvolutionOp) (a₁ : ForwardArgs) (rest : List ForwardArgs)
    (hc : operandChecks param a₁ = true) (hs : a₁.succeeds) :
    (CuDNNConvolutionOp.new T param mem).init_cudnn_ = false ∧
    (∀ r ∈ forwards T v (a₁ :: rest) (CuDNNConvolutionOp.new T param mem),
      r.op.init_cudnn_ = true) ∧
    (forwards T v (a₁ :: rest) (CuDNNConvolutionOp.new T param mem)).map
        (fun r => r.trace.filter Call.isInit) =
      initCalls T v a₁ (CuDNNConvolutionOp.new T param mem) :: rest.map (fun _ => []) ∧
    (∀ a op, operandChecks op.param_ a = true →
      ((∃ c ∈ (Forward T v a op).trace, c.isInit = true) ↔ op.init_cudnn_ = false)) ∧
    (∀ a op, op.init_cudnn_ = true → (Forward T v a op).op.init_cudnn_ = true) := by
  have hc' : operandChecks (CuDNNConvolutionOp.new T param mem).param_ a₁ = true := hc
  have h1 := Forward_first T v a₁ _ hc' hs rfl
  have hi1 : (Forward T v a₁ (CuDNNConvolutionOp.new T param mem)).op.init_cudnn_ = true := by
    rw [h1]; rfl
  have hrest := forwards_of_init T v rest _ hi1
  refine ⟨rfl, ?_, ?_, ?_, ?_⟩
  · intro r hr
    simp only [forwards, List.mem_cons] at hr
    rcases hr with rfl | hr
    · exact hi1
    · rw [(hrest r hr).1]; exact hi1
  · simp only [forwards, List.map_cons]
    rw [map_filter_isInit_forwards T v rest _ hi1, h1]
    simp only [List.filter_append, filter_isInit_execCalls, List.append_nil,
      List.filter_eq_self.2 (isInit_of_mem_initCalls T v a₁ _)]
    simp [Call.isInit]
  · intro a op hca
    constructor
    · rintro ⟨c, hc, hci⟩
      by_contra hne
      have hi : op.init_cudnn_ = true := by simpa using hne
      rcases Forward_trace_of_init T v a op hi c hc with h | ⟨n, rfl⟩
      · rw [isInit_eq_false_of_isExec c h] at hci; cases hci
      · cases hci
    · intro hi
      obtain ⟨⟨l, e, -⟩, -⟩ := Forward_uninit T v a op hca hi
      exact ⟨.cudnnCreateTensorDescriptor .in_desc_, by rw [e]; exact List.mem_cons_self _ _, rfl⟩
  · intro a op hi
    rw [Forward_op_of_init T v a op hi]; exact hi

/-- Witness of C2: the scenario of the specification, invoked three times. -/
theorem C2_init_runs_exactly_once_witness :
    operandChecks cfgGroups2 args3 = true ∧ args3.succeeds ∧
    (forwards float32 cudnnV4 [args3, args3, args3]
        (CuDNNConvolutionOp.new float32 cfgGroups2 zeroMem)).map
        (fun r => r.trace.filter Call.isInit) =
      [initCalls float32 cudnnV4 args3 (CuDNNConvolutionOp.new float32 cfgGroups2 zeroMem),
        [], []] :=
  ⟨rfl, ⟨fun _ => rfl, rfl⟩,
    (C2_init_runs_exactly_once float32 cudnnV4 cfgGroups2 zeroMem args3 [args3, args3] rfl
      ⟨fun _ => rfl, rfl⟩).2.2.1⟩

theorem delete_of_succeeds (be : Backend) (op : CuDNNConvolutionOp)
    (hbe : ∀ c, be.status c = true) (hi : op.init_cudnn_ = true) :
    (CuDNNConvolutionOp.delete be op).trace =
      [.cudnnDestroyTensorDescriptor op.in_desc_, .cudnnDestroyTensorDescriptor op.out_desc_,
        .cudnnDestroyTensorDescriptor op.bias_desc_, .cudnnDestroyFilterDescriptor op.filter_desc_,
        .cudnnDestroyConvolutionDescriptor op.conv_desc_] := by
  simp [CuDNNConvolutionOp.delete, Run.when, Run.cudnn, hbe, hi]

theorem delete_of_uninit (be : Backend) (op : CuDNNConvolutionOp)
    (hi : op.init_cudnn_ = false) : (CuDNNConvolutionOp.delete be op).trace = [] := by
  simp [CuDNNConvolutionOp.delete, Run.when, hi]

theorem filter_isCreate_initCalls (T : DType) (v : CudnnVersion) (a : ForwardArgs)
    (op : CuDNNConvolutionOp) :
    (initCalls T v a op).filter Call.isCreate =
      [.cudnnCreateTensorDescriptor .in_desc_, .cudnnCreateTensorDescriptor .out_desc_,
        .cudnnCreateTensorDescriptor .bias_desc_, .cudnnCreateFilterDescriptor .filter_desc_,
        .cudnnCreateConvolutionDescriptor .conv_desc_] := by
  cases hb : op.param_.no_bias <;> simp [initCalls, hb, Call.isCreate]

theorem filter_isDestroy_initCalls (T : DType) (v : CudnnVersion) (a : ForwardArgs)
    (op : CuDNNConvolutionOp) : (initCalls T v a op).filter Call.isDestroy = [] := by
  cases hb : op.param_.no_bias <;> simp [initCalls, hb, Call.isDestroy]

/-- C8: over the lifetime of one operator (construction, any `Forward` invocations,
destruction with a library that reports success) the descriptors are balanced.  If
some `Forward` reached initialisation (`a₁`, the first to pass the operand checks, in
an environment where nothing fails), exactly the five descriptors `in_desc_`, `out_desc_`,
`bias_desc_`, `filter_desc_`, `conv_desc_` were created, the bias descriptor also
under `no_bias`, and the destructor destroys exactly the five handles the library
returned for them, each once.  If no `Forward` reached initialisation, no descriptor
was created and the destructor destroys none. -/
theorem C8_descriptors_balanced (T : DType) (v : CudnnVersion) (param : ConvolutionParam)
    (mem : CuDNNConvolutionOp) (be : Backend) (hbe : ∀ c, be.status c = true) :
    (∀ (before : List ForwardArgs) (a₁ : ForwardArgs) (after : List ForwardArgs),
      (∀ a ∈ before, operandChecks param a = false) → operandChecks param a₁ = true →
      a₁.succeeds →
      (lifetime T v param mem (before ++ a₁ :: after) be).filter Call.isCreate =
        [.cudnnCreateTensorDescriptor .in_desc_, .cudnnCreateTensorDescriptor .out_desc_,
          .cudnnCreateTensorDescriptor .bias_desc_, .cudnnCreateFilterDescriptor .filter_desc_,
          .cudnnCreateConvolutionDescriptor .conv_desc_] ∧
      (lifetime T v param mem (before ++ a₁ :: after) be).filter Call.isDestroy =
        [.cudnnDestroyTensorDescriptor (a₁.backend.descriptor .in_desc_),
          .cudnnDestroyTensorDescriptor (a₁.backend.descriptor .out_desc_),
          .cudnnDestroyTensorDescriptor (a₁.backend.descriptor .bias_desc_),
          .cudnnDestroyFilterDescriptor (a₁.backend.descriptor .filter_desc_),
          .cudnnDestroyConvolutionDescriptor (a₁.backend.descriptor .conv_desc_)]) ∧
    (∀ cs : List ForwardArgs, (∀ a ∈ cs, operandChecks param a = false) →
      (lifetime T v param mem cs be).filter Call.isCreate = [] ∧
      (lifetime T v param mem cs be).filter Call.isDestroy = []) := by
  constructor
  · intro before a₁ after hpre hc hs
    obtain ⟨hop, htr⟩ := opAfter_of_checks_false T v before (CuDNNConvolutionOp.new T param mem)
      hpre
    have h1 := Forward_first T v a₁ (CuDNNConvolutionOp.new T param mem) hc hs rfl
    have hi1 : (Forward T v a₁ (CuDNNConvolutionOp.new T param mem)).op.init_cudnn_ = true := by
      rw [h1]; rfl
    have hafter := traceOf_of_init T v after _ hi1
    have hfin : opAfter T v (before ++ a₁ :: after) (CuDNNConvolutionOp.new T param mem) =
        initOp T v a₁ (CuDNNConvolutionOp.new T param mem) := by
      rw [opAfter_append, hop]
      show opAfter T v after (Forward T v a₁ _).op = _
      rw [opAfter_of_init T v after _ hi1, h1]
    have htrace : traceOf T v (before ++ a₁ :: after) (CuDNNConvolutionOp.new T param mem) =
        (Forward T v a₁ (CuDNNConvolutionOp.new T param mem)).trace ++
          traceOf T v after (Forward T v a₁ (CuDNNConvolutionOp.new T param mem)).op := by
      rw [traceOf_append, htr, hop]
      simp [traceOf, forwards]
    have hc0 : (traceOf T v after
        (Forward T v a₁ (CuDNNConvolutionOp.new T param mem)).op).filter Call.isCreate = [] :=
      filter_eq_nil_of_forall _ _ fun c hc => by
        rcases hafter c hc with h | ⟨n, rfl⟩
        · exact isCreate_eq_false_of_isExec c h
        · rfl
    have hd0 : (traceOf T v after
        (Forward T v a₁ (CuDNNConvolutionOp.new T param mem)).op).filter Call.isDestroy = [] :=
      filter_eq_nil_of_forall _ _ fun c hc => by
        rcases hafter c hc with h | ⟨n, rfl⟩
        · exact isDestroy_eq_false_of_isExec c h
        · rfl
    have hce : (execCalls v (initOp T v a₁ (CuDNNConvolutionOp.new T param mem))).filter
        Call.isCreate = [] :=
      filter_eq_nil_of_forall _ _ fun c hc =>
        isCreate_eq_false_of_isExec c (isExec_of_mem_execCalls v _ c hc)
    have hde : (execCalls v (initOp T v a₁ (CuDNNConvolutionOp.new T param mem))).filter
        Call.isDestroy = [] :=
      filter_eq_nil_of_forall _ _ fun c hc =>
        isDestroy_eq_false_of_isExec c (isExec_of_mem_execCalls v _ c hc)
    unfold lifetime
    rw [hfin, htrace, delete_of_succeeds be _ hbe (by rfl)]
    simp only [List.filter_append, hc0, hd0, List.append_nil]
    rw [h1]
    simp only [List.filter_append, hce, hde, filter_isCreate_initCalls,
      filter_isDestroy_initCalls, List.append_nil]
    constructor
    · simp [Call.isCreate]
    · simp [Call.isDestroy, initOp]
  · intro cs hcs
    obtain ⟨hop, htr⟩ := opAfter_of_checks_false T v cs (CuDNNConvolutionOp.new T param mem) hcs
    unfold lifetime
    rw [hop, htr, delete_of_uninit be _ rfl]
    simp

/-- Witness of C8: a rejected invocation, the scenario of the specification, and one
more invocation, then destruction. -/
theorem C8_descriptors_balanced_witness :
    (∀ c, okBackend.status c = true) ∧
    (lifetime float32 cudnnV4 cfgNoBias zeroMem ([args3] ++ args2 :: [args2])
        okBackend).filter Call.isDestroy =
      [.cudnnDestroyTensorDescriptor 1, .cudnnDestroyTensorDescriptor 2,
        .cudnnDestroyTensorDescriptor 3, .cudnnDestroyFilterDescriptor 4,
        .cudnnDestroyConvolutionDescriptor 5] :=
  ⟨fun _ => rfl,
    ((C8_descriptors_balanced float32 cudnnV4 cfgNoBias zeroMem okBackend fun _ => rfl).1
      [args3] args2 [args2] (by decide) rfl ⟨fun _ => rfl, rfl⟩).2⟩

/-- C9: once an operator is initialised, later `Forward` invocations, whatever their
operands and whatever the library answers, leave the operator object unchanged, in
particular `data_offset_`, `out_offset_`, `weight_offset_`, `bias_offset_`, `algo_`,
`forward_workspace_byte_` and `forward_workspace_`; the workspace request and the
group loop of a later invocation use these cached values; and the cached values are
those computed from the operands of the first invocation. -/
theorem C9_cached_state_frozen (T : DType) (v : CudnnVersion) (op : CuDNNConvolutionOp)
    (hi : op.init_cudnn_ = true) (later : List ForwardArgs) (a : ForwardArgs) :
    opAfter T v later op = op ∧
    ((Forward T v a (opAfter T v later op)).op.data_offset_ = op.data_offset_ ∧
      (Forward T v a (opAfter T v later op)).op.out_offset_ = op.out_offset_ ∧
      (Forward T v a (opAfter T v later op)).op.weight_offset_ = op.weight_offset_ ∧
      (Forward T v a (opAfter T v later op)).op.bias_offset_ = op.bias_offset_ ∧
      (Forward T v a (opAfter T v later op)).op.algo_ = op.algo_ ∧
      (Forward T v a (opAfter T v later op)).op.forward_workspace_byte_ =
        op.forward_workspace_byte_ ∧
      (Forward T v a (opAfter T v later op)).op.forward_workspace_ = op.forward_workspace_) ∧
    (operandChecks op.param_ a = true → (∀ c, a.backend.status c = true) →
      (Forward T v a (opAfter T v later op)).trace =
        .get_space_typed (u32 op.forward_workspace_) :: execCalls v op) ∧
    (∀ op₀ a₁, op₀.init_cudnn_ = false → operandChecks op₀.param_ a₁ = true → a₁.succeeds →
      op = (Forward T v a₁ op₀).op →
      op.data_offset_ = dataOffset op₀.param_ a₁.data ∧
      op.out_offset_ = outOffset op₀.param_ a₁.out ∧
      op.weight_offset_ = weightOffset op₀.param_ a₁.data ∧
      (op₀.param_.no_bias = false → op.bias_offset_ = biasOffset op₀.param_ a₁.bias) ∧
      op.algo_ = a₁.backend.algo (workspace_byte T op₀) ∧
      op.forward_workspace_byte_ = u64 (a₁.backend.workspaceSize op.algo_) ∧
      op.forward_workspace_ = u64 (op.forward_workspace_byte_ / T.sizeof + 1)) := by
  have h1 := opAfter_of_init T v later op hi
  have h2 := Forward_op_of_init T v a op hi
  refine ⟨h1, ?_, ?_, ?_⟩
  · rw [h1, h2]; simp
  · intro hc hs
    rw [h1, Forward_later T v a op hc hs hi]; rfl
  · intro op₀ a₁ hi₀ hc₀ hs₀ e
    rw [Forward_first T v a₁ op₀ hc₀ hs₀ hi₀] at e
    subst e
    refine ⟨rfl, rfl, rfl, fun hb => ?_, rfl, rfl, rfl⟩
    simp [initOp, hb]

/-- Witness of C9: the operator initialised by the scenario of the specification,
then invoked with other operands. -/
theorem C9_cached_state_frozen_witness :
    (initOp float32 cudnnV4 args3 (CuDNNConvolutionOp.new float32 cfgGroups2 zeroMem)).init_cudnn_
      = true ∧
    opAfter float32 cudnnV4 [args2, args3Full]
        (initOp float32 cudnnV4 args3 (CuDNNConvolutionOp.new float32 cfgGroups2 zeroMem)) =
      initOp float32 cudnnV4 args3 (CuDNNConvolutionOp.new float32 cfgGroups2 zeroMem) :=
  ⟨rfl, (C9_cached_state_frozen float32 cudnnV4
    (initOp float32 cudnnV4 args3 (CuDNNConvolutionOp.new float32 cfgGroups2 zeroMem)) rfl
    [args2, args3Full] args3).1⟩

theorem groupCalls_eq_amended (v : CudnnVersion) (op : CuDNNConvolutionOp) (g : Nat) :
    groupCalls v op g =
      convCall op g ::
        (if op.param_.no_bias = false ∧ (3 ≤ v.CUDNN_MAJOR ∨ v.CUDNN_VERSION = 2000) then
          [addCall (decide (v.CUDNN_MAJOR < 4)) op g]
         else []) := by
  have hv : v.CUDNN_VERSION = v.CUDNN_MAJOR * 1000 + v.CUDNN_MINOR * 100 + v.CUDNN_PATCHLEVEL :=
    rfl
  cases hb : op.param_.no_bias
  · by_cases h4 : 4 ≤ v.CUDNN_MAJOR
    · have h3 : ¬ (v.CUDNN_MAJOR = 3 ∨ v.CUDNN_VERSION = 2000) := by omega
      have h3' : 3 ≤ v.CUDNN_MAJOR ∨ v.CUDNN_VERSION = 2000 := by omega
      have hlt : ¬ v.CUDNN_MAJOR < 4 := by omega
      simp [groupCalls, convCall, addCall, hb, h4, h3, h3', hlt]
    · by_cases h3 : v.CUDNN_MAJOR = 3 ∨ v.CUDNN_VERSION = 2000
      · have h3' : 3 ≤ v.CUDNN_MAJOR ∨ v.CUDNN_VERSION = 2000 := by omega
        have hlt : v.CUDNN_MAJOR < 4 := by omega
        simp [groupCalls, convCall, addCall, hb, h4, h3, h3', hlt]
      · have h3' : ¬ (3 ≤ v.CUDNN_MAJOR ∨ v.CUDNN_VERSION = 2000) := by omega
        simp [groupCalls, convCall, hb, h4, h3, h3']
  · simp [groupCalls, convCall, hb]

theorem execCalls_eq_amended (v : CudnnVersion) (op : CuDNNConvolutionOp) :
    execCalls v op = amendedExecCalls v op := by
  unfold execCalls amendedExecCalls
  congr 1
  funext g
  exact groupCalls_eq_amended v op g

theorem isExec_eq_false_of_isInit (c : Call) (h : c.isInit = true) : c.isExec = false := by
  cases c <;> first | rfl | cases h

theorem flatMap_singleton_eq_map {α β : Type} (f : α → β) (l : List α) :
    (l.flatMap fun g => [f g]) = l.map f := by
  induction l with
  | nil => rfl
  | cons x l ih => simp [List.flatMap_cons, ih]

theorem filter_isExec_Forward (T : DType) (v : CudnnVersion) (a : ForwardArgs)
    (op : CuDNNConvolutionOp) (hc : operandChecks op.param_ a = true) (hs : a.succeeds) :
    (Forward T v a op).trace.filter Call.isExec = execCalls v (Forward T v a op).op := by
  cases hi : op.init_cudnn_
  · rw [Forward_first T v a op hc hs hi]
    simp only [List.filter_append]
    rw [filter_eq_nil_of_forall _ (initCalls T v a op) (fun c hc =>
        isExec_eq_false_of_isInit c (isInit_of_mem_initCalls T v a op c hc)),
      List.filter_eq_self.2 (isExec_of_mem_execCalls v _)]
    simp [Call.isExec]
  · rw [Forward_later T v a op hc hs.1 hi]
    simp only [List.filter_append]
    rw [List.filter_eq_self.2 (isExec_of_mem_execCalls v _)]
    simp [Call.isExec]

/-- C5 as stated fails on cuDNN 2.0.0: with bias configured the operator issues a
tensor-add call after each convolution call although the major version is below 3. -/
theorem C5_counterexample :
    operandChecks cfgGroups2 args3 = true ∧ args3.succeeds ∧ cudnnV2.CUDNN_MAJOR < 3 ∧
    (Forward float32 cudnnV2 args3
        (CuDNNConvolutionOp.new float32 cfgGroups2 zeroMem)).trace.filter Call.isExec =
      [.cudnnConvolutionForward 1 1 0 4 0 5 1 0 0 2 0, .cudnnAddTensor true 1 3 0 1 2 0,
        .cudnnConvolutionForward 1 1 128 4 36 5 1 0 0 2 128,
        .cudnnAddTensor true 1 3 2 1 2 128] ∧
    (Forward float32 cudnnV2 args3
        (CuDNNConvolutionOp.new float32 cfgGroups2 zeroMem)).trace.filter Call.isExec ≠
      claimedExecCalls cudnnV2
        (Forward float32 cudnnV2 args3 (CuDNNConvolutionOp.new float32 cfgGroups2 zeroMem)).op := by
  refine ⟨rfl, ⟨fun _ => rfl, rfl⟩, by decide, ?_, ?_⟩
  · decide
  · decide

/-- C5 (amended): for every `Forward` invocation that passes the operand checks in an
environment where nothing fails, the execution calls issued are exactly, for
g = 0, ..., num_group - 1 in increasing order, one forward-convolution call with
alpha 1, beta 0 and the data, weight and output pointers advanced by
`g * data_offset_`, `g * weight_offset_`, `g * out_offset_`, followed, if and only if
`no_bias` is false and the library version has `CUDNN_MAJOR >= 3` or
`CUDNN_VERSION == 2000`, by exactly one tensor-add call with alpha 1, beta 1, the bias
pointer advanced by `g * bias_offset_` and the same output pointer.  Under `no_bias`
the execution calls are exactly the `num_group` convolution calls. -/
theorem C5_execution_trace (T : DType) (v : CudnnVersion) (a : ForwardArgs)
    (op : CuDNNConvolutionOp) (hc : operandChecks op.param_ a = true) (hs : a.succeeds) :
    (Forward T v a op).trace.filter Call.isExec = amendedExecCalls v (Forward T v a op).op ∧
    (op.param_.no_bias = true →
      (Forward T v a op).trace.filter Call.isExec =
        (List.range op.param_.num_group).map (convCall (Forward T v a op).op)) := by
  have hp : (Forward T v a op).op.param_ = op.param_ := by
    cases hi : op.init_cudnn_
    · exact (Forward_uninit T v a op hc hi).2.2.1
    · rw [Forward_op_of_init T v a op hi]
  rw [filter_isExec_Forward T v a op hc hs, execCalls_eq_amended]
  refine ⟨rfl, fun hb => ?_⟩
  simp only [amendedExecCalls, hp, hb]
  simpa using flatMap_singleton_eq_map (convCall (Forward T v a op).op) _

/-- Witness of C5 (amended): the scenario of the specification on cuDNN 2.0.0. -/
theorem C5_execution_trace_witness :
    operandChecks cfgGroups2 args3 = true ∧ args3.succeeds ∧
    (Forward float32 cudnnV2 args3
        (CuDNNConvolutionOp.new float32 cfgGroups2 zeroMem)).trace.filter Call.isExec =
      amendedExecCalls cudnnV2
        (Forward float32 cudnnV2 args3 (CuDNNConvolutionOp.new float32 cfgGroups2 zeroMem)).op :=
  ⟨rfl, ⟨fun _ => rfl, rfl⟩,
    (C5_execution_trace float32 cudnnV2 args3 (CuDNNConvolutionOp.new float32 cfgGroups2 zeroMem)
      rfl ⟨fun _ => rfl, rfl⟩).1⟩

theorem requestedSizes_append (l1 l2 : List Call) :
    requestedSizes (l1 ++ l2) = requestedSizes l1 ++ requestedSizes l2 := by
  induction l1 with
  | nil => rfl
  | cons c l1 ih => cases c <;> simp [requestedSizes, ih]

theorem requestedSizes_eq_nil (l : List Call) (h : ∀ c ∈ l, ∀ n, c ≠ .get_space_typed n) :
    requestedSizes l = [] := by
  induction l with
  | nil => rfl
  | cons c l ih =>
    have ih' := ih fun d hd => h d (List.mem_cons_of_mem _ hd)
    have hc := h c (List.mem_cons_self _ _)
    cases c <;> first | exact ih' | exact absurd rfl (hc _)

theorem requestedSizes_initCalls (T : DType) (v : CudnnVersion) (a : ForwardArgs)
    (op : CuDNNConvolutionOp) : requestedSizes (initCalls T v a op) = [] :=
  requestedSizes_eq_nil _ fun c hc n e => by
    have := isInit_of_mem_initCalls T v a op c hc
    rw [e] at this; cases this

theorem requestedSizes_execCalls (v : CudnnVersion) (op : CuDNNConvolutionOp) :
    requestedSizes (execCalls v op) = [] :=
  requestedSizes_eq_nil _ fun c hc n e => by
    have := isExec_of_mem_execCalls v op c hc
    rw [e] at this; cases this

theorem mem_handedBytes (l : List Call) (b : Nat) (h : b ∈ handedBytes l) :
    ∃ c ∈ l, ∃ x1 x2 x3 x4 x5 x6 x7 x8 x9 x10,
      c = .cudnnConvolutionForward x1 x2 x3 x4 x5 x6 x7 b x8 x9 x10 := by
  induction l with
  | nil => cases h
  | cons c l ih =>
    cases c
    case cudnnConvolutionForward y1 y2 y3 y4 y5 y6 y7 y8 y9 y10 y11 =>
      rcases List.mem_cons.1 h with e | h'
      · subst e
        exact ⟨_, List.mem_cons_self _ _, _, _, _, _, _, _, _, _, _, _, rfl⟩
      · obtain ⟨c, hc, hx⟩ := ih h'
        exact ⟨c, List.mem_cons_of_mem _ hc, hx⟩
    all_goals
      obtain ⟨c, hc, hx⟩ := ih h
      exact ⟨c, List.mem_cons_of_mem _ hc, hx⟩

theorem handedBytes_Forward (T : DType) (v : CudnnVersion) (a : ForwardArgs)
    (op : CuDNNConvolutionOp) (hc : operandChecks op.param_ a = true) (hs : a.succeeds) :
    ∀ b ∈ handedBytes (Forward T v a op).trace,
      b = (Forward T v a op).op.forward_workspace_byte_ := by
  intro b hb
  obtain ⟨c, hcm, x1, x2, x3, x4, x5, x6, x7, x8, x9, x10, e⟩ := mem_handedBytes _ b hb
  have hex : c ∈ (Forward T v a op).trace.filter Call.isExec :=
    List.mem_filter.2 ⟨hcm, by rw [e]; rfl⟩
  rw [filter_isExec_Forward T v a op hc hs] at hex
  obtain ⟨g, -, hg⟩ := List.mem_flatMap.1 hex
  rw [groupCalls_eq_amended, e] at hg
  rcases List.mem_cons.1 hg with h | h
  · simp only [convCall, Call.cudnnConvolutionForward.injEq] at h
    exact h.2.2.2.2.2.2.2.1
  · split at h
    · simp [addCall] at h
    · cases h

theorem requestedSizes_Forward (T : DType) (v : CudnnVersion) (a : ForwardArgs)
    (op : CuDNNConvolutionOp) (hc : operandChecks op.param_ a = true) (hs : a.succeeds) :
    requestedSizes (Forward T v a op).trace = [u32 (Forward T v a op).op.forward_workspace_] := by
  cases hi : op.init_cudnn_
  · rw [Forward_first T v a op hc hs hi]
    show requestedSizes (_ ++ _ ++ _) = _
    rw [requestedSizes_append, requestedSizes_append, requestedSizes_initCalls,
      requestedSizes_execCalls]
    rfl
  · rw [Forward_later T v a op hc hs.1 hi]
    show requestedSizes (_ ++ _) = _
    rw [requestedSizes_append, requestedSizes_execCalls]
    rfl

theorem memoryLimits_append (l1 l2 : List Call) :
    memoryLimits (l1 ++ l2) = memoryLimits l1 ++ memoryLimits l2 := by
  induction l1 with
  | nil => rfl
  | cons c l1 ih => cases c <;> simp [memoryLimits, ih]

theorem memoryLimits_eq_nil (l : List Call)
    (h : ∀ c ∈ l, ∀ x1 x2 x3 x4 b, c ≠ .cudnnGetConvolutionForwardAlgorithm x1 x2 x3 x4 b) :
    memoryLimits l = [] := by
  induction l with
  | nil => rfl
  | cons c l ih =>
    have ih' := ih fun d hd => h d (List.mem_cons_of_mem _ hd)
    have hc := h c (List.mem_cons_self _ _)
    cases c <;> first | exact ih' | exact absurd rfl (hc _ _ _ _ _)

theorem memoryLimits_Forward_first (T : DType) (v : CudnnVersion) (a : ForwardArgs)
    (op : CuDNNConvolutionOp) (hc : operandChecks op.param_ a = true) (hs : a.succeeds)
    (hi : op.init_cudnn_ = false) :
    memoryLimits (Forward T v a op).trace = [workspace_byte T op] := by
  rw [Forward_first T v a op hc hs hi]
  have hex : memoryLimits (execCalls v (initOp T v a op)) = [] :=
    memoryLimits_eq_nil _ fun c hc x1 x2 x3 x4 b e => by
      have := isExec_of_mem_execCalls v _ c hc
      rw [e] at this; cases this
  have hin : memoryLimits (initCalls T v a op) = [workspace_byte T op] := by
    cases hb : op.param_.no_bias <;> simp [initCalls, hb, memoryLimits]
  show memoryLimits (_ ++ _ ++ _) = _
  rw [memoryLimits_append, memoryLimits_append, hex, hin]
  rfl

theorem u32_of_lt {x : Nat} (h : x < 2 ^ 32) : u32 x = x := Nat.mod_eq_of_lt h

theorem u64_of_lt {x : Nat} (h : x < 2 ^ 64) : u64 x = x := Nat.mod_eq_of_lt h

theorem u32_le (x : Nat) : u32 x ≤ x := Nat.mod_le _ _

theorem u64_le (x : Nat) : u64 x ≤ x := Nat.mod_le _ _

theorem u32_mul_u32 (a b : Nat) : u32 (u32 a * b) = u32 (a * b) := by
  unfold u32; rw [Nat.mod_mul_mod]

/-- C4 as stated fails when the intermediate product `num_filter / num_group *
data.shape_[1]` overflows 32 bits: with 1048576 filters of size 1x1, 16 groups and
65536 input channels the code computes `weight_offset_ = 0`, while
`(F / G) * (Cin / G) * kernelH * kernelW = 268435456`. -/
theorem C4_counterexample :
    1 ≤ cfgLarge.num_group ∧ cfgLarge.num_group ∣ dataLarge.dim 1 ∧
    cfgLarge.num_group ∣ cfgLarge.num_filter ∧
    weightOffset cfgLarge dataLarge = 0 ∧
    cfgLarge.num_filter / cfgLarge.num_group * (dataLarge.dim 1 / cfgLarge.num_group) *
      cfgLarge.kernel0 * cfgLarge.kernel1 = 268435456 ∧
    weightOffset cfgLarge dataLarge ≠
      cfgLarge.num_filter / cfgLarge.num_group * (dataLarge.dim 1 / cfgLarge.num_group) *
        cfgLarge.kernel0 * cfgLarge.kernel1 := by
  decide

/-- C4 (amended): when `num_group >= 1` divides both the input channel count and
`num_filter`, and neither the intermediate product `num_filter / num_group *
data.shape_[1]` nor the result overflows the 32-bit unsigned type the expression is
evaluated in, the `weight_offset_` computed by `Init` (left to right, truncating
division) equals `(F / G) * (Cin / G) * kernelH * kernelW`. -/
theorem C4_weight_offset (p : ConvolutionParam) (data : TBlob)
    (_hG : 1 ≤ p.num_group) (hC : p.num_group ∣ data.dim 1)
    (_hF : p.num_group ∣ p.num_filter)
    (h1 : p.num_filter / p.num_group * data.dim 1 < 2 ^ 32)
    (h2 : p.num_filter / p.num_group * (data.dim 1 / p.num_group) * p.kernel0 * p.kernel1
      < 2 ^ 32) :
    weightOffset p data =
      p.num_filter / p.num_group * (data.dim 1 / p.num_group) * p.kernel0 * p.kernel1 := by
  unfold weightOffset
  rw [u32_of_lt h1, Nat.mul_div_assoc _ hC, u32_mul_u32, u32_of_lt h2]

/-- Witness of C4 (amended): two groups, input 1x4x8x8, four filters, kernel 3x3 give
`weight_offset_ = 36`. -/
theorem C4_weight_offset_witness :
    weightOffset cfgGroups2 args3.data = 36 ∧
    weightOffset cfgGroups2 args3.data =
      cfgGroups2.num_filter / cfgGroups2.num_group *
        (args3.data.dim 1 / cfgGroups2.num_group) * cfgGroups2.kernel0 * cfgGroups2.kernel1 :=
  ⟨by decide,
    C4_weight_offset cfgGroups2 args3.data (by decide) (by decide) (by decide) (by decide)
      (by decide)⟩

theorem workspace_byte_new (T : DType) (param : ConvolutionParam) (mem : CuDNNConvolutionOp)
    (k : Nat) (hk : k ≤ 20) (hS : T.sizeof = 2 ^ k) (hM : param.workspace * 2 ^ 20 < 2 ^ 64) :
    workspace_byte T (CuDNNConvolutionOp.new T param mem) = param.workspace * 2 ^ 20 := by
  simp only [workspace_byte, CuDNNConvolutionOp.new, u64]
  rw [Nat.mod_eq_of_lt hM]
  have hd : 2 ^ k ∣ param.workspace * 2 ^ 20 :=
    Dvd.dvd.mul_left (Nat.pow_dvd_pow 2 hk) _
  have hle : param.workspace * 2 ^ 20 / T.sizeof ≤ param.workspace * 2 ^ 20 :=
    Nat.div_le_self _ _
  rw [Nat.mod_eq_of_lt (lt_of_le_of_lt hle hM), hS, Nat.div_mul_cancel hd]
  exact Nat.mod_eq_of_lt hM

/-- C10: for a budget of M MiB and an element size that is a power of two not above
2^20, provided `M << 20` does not overflow the 64-bit workspace field, the
constructor's conversion to elements followed by `Init`'s conversion back to bytes is
lossless: `workspace_byte = ((M << 20) / S) * S = M * 2^20`, and this is the byte limit
the first `Forward` hands to the algorithm query. -/
theorem C10_budget_roundtrip (T : DType) (v : CudnnVersion) (param : ConvolutionParam)
    (mem : CuDNNConvolutionOp) (k : Nat) (hk : k ≤ 20) (hS : T.sizeof = 2 ^ k)
    (hM : param.workspace * 2 ^ 20 < 2 ^ 64) :
    (CuDNNConvolutionOp.new T param mem).param_.workspace =
      param.workspace * 2 ^ 20 / T.sizeof ∧
    workspace_byte T (CuDNNConvolutionOp.new T param mem) =
      param.workspace * 2 ^ 20 / T.sizeof * T.sizeof ∧
    workspace_byte T (CuDNNConvolutionOp.new T param mem) = param.workspace * 2 ^ 20 ∧
    (∀ a : ForwardArgs, operandChecks param a = true → a.succeeds →
      memoryLimits (Forward T v a (CuDNNConvolutionOp.new T param mem)).trace =
        [param.workspace * 2 ^ 20]) := by
  have hw := workspace_byte_new T param mem k hk hS hM
  have hd : 2 ^ k ∣ param.workspace * 2 ^ 20 :=
    Dvd.dvd.mul_left (Nat.pow_dvd_pow 2 hk) _
  have hle : param.workspace * 2 ^ 20 / T.sizeof ≤ param.workspace * 2 ^ 20 :=
    Nat.div_le_self _ _
  refine ⟨?_, ?_, hw, fun a hc hs => ?_⟩
  · show u64 (u64 (param.workspace * 2 ^ 20) / T.sizeof) = _
    rw [u64_of_lt hM, u64_of_lt (lt_of_le_of_lt hle hM)]
  · rw [hw, hS, Nat.div_mul_cancel hd]
  · rw [memoryLimits_Forward_first T v a _ hc hs rfl, hw]

/-- Witness of C10: 512 MiB and 4-byte elements. -/
theorem C10_budget_roundtrip_witness :
    (2 : Nat) ≤ 20 ∧ float32.sizeof = 2 ^ 2 ∧ cfgGroups2.workspace * 2 ^ 20 < 2 ^ 64 ∧
    workspace_byte float32 (CuDNNConvolutionOp.new float32 cfgGroups2 zeroMem) =
      cfgGroups2.workspace * 2 ^ 20 :=
  ⟨by decide, by decide, by decide,
    (C10_budget_roundtrip float32 cudnnV4 cfgGroups2 zeroMem 2 (by decide) (by decide)
      (by decide)).2.2.1⟩

theorem Forward_first_op (T : DType) (v : CudnnVersion) (a : ForwardArgs)
    (op : CuDNNConvolutionOp) (hc : operandChecks op.param_ a = true) (hs : a.succeeds)
    (hi : op.init_cudnn_ = false) :
    (Forward T v a op).op.param_ = op.param_ ∧
    (Forward T v a op).op.init_cudnn_ = true ∧
    (Forward T v a op).op.forward_workspace_byte_ = reportedBytes T a op ∧
    (Forward T v a op).op.forward_workspace_ = u64 (reportedBytes T a op / T.sizeof + 1) := by
  rw [Forward_first T v a op hc hs hi]
  exact ⟨rfl, rfl, rfl, rfl⟩

/-- C6 as stated fails: with a budget of 512 MiB and 4-byte elements the budget is
134217728 elements; a library whose selected algorithm needs exactly the 536870912
bytes of the limit honours the limit, and `Init` caches
`forward_workspace_ = 134217729`, one element above the budget. -/
theorem C6_counterexample :
    operandChecks cfgGroups2 args3Full = true ∧ args3Full.succeeds ∧
    args3Full.backend.workspaceSize (args3Full.backend.algo
        (workspace_byte float32 (CuDNNConvolutionOp.new float32 cfgGroups2 zeroMem))) ≤
      workspace_byte float32 (CuDNNConvolutionOp.new float32 cfgGroups2 zeroMem) ∧
    (Forward float32 cudnnV4 args3Full
      (CuDNNConvolutionOp.new float32 cfgGroups2 zeroMem)).op.param_.workspace = 134217728 ∧
    (Forward float32 cudnnV4 args3Full
      (CuDNNConvolutionOp.new float32 cfgGroups2 zeroMem)).op.forward_workspace_ = 134217729 ∧
    requestedSizes (Forward float32 cudnnV4 args3Full
      (CuDNNConvolutionOp.new float32 cfgGroups2 zeroMem)).trace = [134217729] ∧
    ¬ (Forward float32 cudnnV4 args3Full
        (CuDNNConvolutionOp.new float32 cfgGroups2 zeroMem)).op.forward_workspace_ ≤
      (Forward float32 cudnnV4 args3Full
        (CuDNNConvolutionOp.new float32 cfgGroups2 zeroMem)).op.param_.workspace := by
  refine ⟨rfl, ⟨fun _ => rfl, rfl⟩, ?_, ?_, ?_, ?_, ?_⟩ <;> decide

/-- C6 (amended): when the library honours the byte limit it is given, the workspace
requirement cached by `Init`, `forward_workspace_`, and the element count requested
from the context are at most the configured budget in elements plus one,
`param_.workspace + 1` with `param_.workspace = (budget_MiB << 20) / sizeof(DType)`;
the reported byte count itself, in whole elements, is within the budget. -/
theorem C6_workspace_within_budget_plus_one (T : DType) (v : CudnnVersion)
    (param : ConvolutionParam) (mem : CuDNNConvolutionOp) (a : ForwardArgs)
    (_hS : 1 ≤ T.sizeof) (hc : operandChecks param a = true) (hs : a.succeeds)
    (hlimit : a.backend.workspaceSize
        (a.backend.algo (workspace_byte T (CuDNNConvolutionOp.new T param mem))) ≤
      workspace_byte T (CuDNNConvolutionOp.new T param mem)) :
    (Forward T v a (CuDNNConvolutionOp.new T param mem)).op.param_.workspace =
      u64 (u64 (param.workspace * 2 ^ 20) / T.sizeof) ∧
    (Forward T v a (CuDNNConvolutionOp.new T param mem)).op.forward_workspace_byte_ / T.sizeof ≤
      (Forward T v a (CuDNNConvolutionOp.new T param mem)).op.param_.workspace ∧
    (Forward T v a (CuDNNConvolutionOp.new T param mem)).op.forward_workspace_ ≤
      (Forward T v a (CuDNNConvolutionOp.new T param mem)).op.param_.workspace + 1 ∧
    (∃ n, requestedSizes (Forward T v a (CuDNNConvolutionOp.new T param mem)).trace = [n] ∧
      n ≤ (Forward T v a (CuDNNConvolutionOp.new T param mem)).op.param_.workspace + 1) := by
  obtain ⟨hp, -, hb, hw⟩ := Forward_first_op T v a (CuDNNConvolutionOp.new T param mem) hc hs rfl
  have hreq := requestedSizes_Forward T v a (CuDNNConvolutionOp.new T param mem) hc hs
  have hbytes : reportedBytes T a (CuDNNConvolutionOp.new T param mem) / T.sizeof ≤
      (CuDNNConvolutionOp.new T param mem).param_.workspace := by
    have h1 : reportedBytes T a (CuDNNConvolutionOp.new T param mem) ≤
        (CuDNNConvolutionOp.new T param mem).param_.workspace * T.sizeof :=
      le_trans (u64_le _) (le_trans hlimit (u64_le _))
    exact Nat.div_le_of_le_mul (by rw [Nat.mul_comm]; exact h1)
  have hfw : (Forward T v a (CuDNNConvolutionOp.new T param mem)).op.forward_workspace_ ≤
      (CuDNNConvolutionOp.new T param mem).param_.workspace + 1 := by
    rw [hw]; exact le_trans (u64_le _) (Nat.succ_le_succ hbytes)
  rw [hp, hb]
  refine ⟨rfl, hbytes, hfw, _, hreq, le_trans (u32_le _) hfw⟩

/-- Witness of C6 (amended): the library that uses the whole limit of 512 MiB. -/
theorem C6_workspace_within_budget_plus_one_witness :
    1 ≤ float32.sizeof ∧ operandChecks cfgGroups2 args3Full = true ∧ args3Full.succeeds ∧
    (Forward float32 cudnnV4 args3Full
        (CuDNNConvolutionOp.new float32 cfgGroups2 zeroMem)).op.forward_workspace_ ≤
      (Forward float32 cudnnV4 args3Full
        (CuDNNConvolutionOp.new float32 cfgGroups2 zeroMem)).op.param_.workspace + 1 :=
  ⟨by decide, rfl, ⟨fun _ => rfl, rfl⟩,
    (C6_workspace_within_budget_plus_one float32 cudnnV4 cfgGroups2 zeroMem args3Full
      (by decide) rfl ⟨fun _ => rfl, rfl⟩ (by decide)).2.2.1⟩

/-- C7: for every byte count B reported by the library and every element size
S >= 1, without overflow (B / S + 1 fits the 32-bit element count of the request),
every `Forward` that passes the operand checks, the first and any later one, requests
a scratch buffer of `forward_workspace_ = B / S + 1` elements and hands the library B
bytes as the workspace size in every convolution call; the buffer is large enough for
the B bytes and wastes at most one element: B < (B / S + 1) * S <= B + S. -/
theorem C7_workspace_rounding (T : DType) (v : CudnnVersion) (op₀ : CuDNNConvolutionOp)
    (a₁ : ForwardArgs) (later : List ForwardArgs) (a : ForwardArgs)
    (hS : 1 ≤ T.sizeof) (hi : op₀.init_cudnn_ = false)
    (hc₁ : operandChecks op₀.param_ a₁ = true) (hs₁ : a₁.succeeds)
    (hc : operandChecks op₀.param_ a = true) (hs : a.succeeds)
    (hno : reportedBytes T a₁ op₀ / T.sizeof + 1 < 2 ^ 32) :
    (requestedSizes (Forward T v a₁ op₀).trace = [reportedBytes T a₁ op₀ / T.sizeof + 1] ∧
      ∀ b ∈ handedBytes (Forward T v a₁ op₀).trace, b = reportedBytes T a₁ op₀) ∧
    (requestedSizes (Forward T v a (opAfter T v later (Forward T v a₁ op₀).op)).trace =
        [reportedBytes T a₁ op₀ / T.sizeof + 1] ∧
      ∀ b ∈ handedBytes (Forward T v a (opAfter T v later (Forward T v a₁ op₀).op)).trace,
        b = reportedBytes T a₁ op₀) ∧
    reportedBytes T a₁ op₀ < (reportedBytes T a₁ op₀ / T.sizeof + 1) * T.sizeof ∧
    (reportedBytes T a₁ op₀ / T.sizeof + 1) * T.sizeof ≤ reportedBytes T a₁ op₀ + T.sizeof := by
  obtain ⟨hp, hinit, hb, hw⟩ := Forward_first_op T v a₁ op₀ hc₁ hs₁ hi
  have hw' : (Forward T v a₁ op₀).op.forward_workspace_ =
      reportedBytes T a₁ op₀ / T.sizeof + 1 := by
    rw [hw, u64_of_lt (lt_trans hno (by norm_num))]
  have hop := opAfter_of_init T v later _ hinit
  have hfr := Forward_op_of_init T v a _ hinit
  have hc' : operandChecks (Forward T v a₁ op₀).op.param_ a = true := by rw [hp]; exact hc
  refine ⟨⟨?_, ?_⟩, ⟨?_, ?_⟩, ?_, ?_⟩
  · rw [requestedSizes_Forward T v a₁ op₀ hc₁ hs₁, hw', u32_of_lt hno]
  · intro b hb'
    rw [handedBytes_Forward T v a₁ op₀ hc₁ hs₁ b hb', hb]
  · rw [hop, requestedSizes_Forward T v a _ hc' hs, hfr, hw', u32_of_lt hno]
  · intro b hb'
    rw [hop] at hb'
    rw [handedBytes_Forward T v a _ hc' hs b hb', hfr, hb]
  · rw [Nat.add_mul, Nat.one_mul]
    exact Nat.lt_div_mul_add hS
  · rw [Nat.add_mul, Nat.one_mul]
    exact Nat.add_le_add_right (Nat.div_mul_le_self _ _) _

/-- Witness of C7: the library needing 536870912 bytes, 4-byte elements. -/
theorem C7_workspace_rounding_witness :
    1 ≤ float32.sizeof ∧
    (CuDNNConvolutionOp.new float32 cfgGroups2 zeroMem).init_cudnn_ = false ∧
    operandChecks cfgGroups2 args3Full = true ∧ args3Full.succeeds ∧
    reportedBytes float32 args3Full (CuDNNConvolutionOp.new float32 cfgGroups2 zeroMem) /
      float32.sizeof + 1 < 2 ^ 32 ∧
    requestedSizes (Forward float32 cudnnV4 args3Full
        (CuDNNConvolutionOp.new float32 cfgGroups2 zeroMem)).trace =
      [reportedBytes float32 args3Full (CuDNNConvolutionOp.new float32 cfgGroups2 zeroMem) /
        float32.sizeof + 1] :=
  ⟨by decide, rfl, rfl, ⟨fun _ => rfl, rfl⟩, by decide,
    (C7_workspace_rounding float32 cudnnV4 (CuDNNConvolutionOp.new float32 cfgGroups2 zeroMem)
      args3Full [argsOther] args3 (by decide) rfl rfl ⟨fun _ => rfl, rfl⟩ rfl
      ⟨fun _ => rfl, rfl⟩ (by decide)).1.1⟩

theorem mixed_lt {a A b B : Nat} (ha : a < A) (hb : b < B) : a * B + b < A * B :=
  calc a * B + b < a * B + B := Nat.add_lt_add_left hb _
    _ = (a + 1) * B := by ring
    _ ≤ A * B := Nat.mul_le_mul_right _ ha

theorem mixed_div {a b B : Nat} (hb : b < B) : (a * B + b) / B = a := by
  have hB : 0 < B := Nat.lt_of_le_of_lt (Nat.zero_le _) hb
  rw [Nat.add_comm, Nat.add_mul_div_right _ _ hB, Nat.div_eq_of_lt hb, Nat.zero_add]

theorem mixed_mod {a b B : Nat} (hb : b < B) : (a * B + b) % B = b := by
  rw [Nat.add_comm, Nat.add_mul_mod_self_right, Nat.mod_eq_of_lt hb]

/-- The flat index of coordinate (n, g * K + c, h, w) in a packed N x (G * K) x H x W
tensor, and how the group is read back from it. -/
theorem flat_index (G K H W g n c h w : Nat) (hg : g < G) (hc : c < K) (hh : h < H)
    (hw : w < W) :
    K * H * W * g + n * (G * K * H * W) + c * (H * W) + h * W + w =
      ((n * (G * K) + (g * K + c)) * H + h) * W + w ∧
    (K * H * W * g + n * (G * K * H * W) + c * (H * W) + h * W + w) / W / H % (G * K) / K = g ∧
    ∀ N, n < N →
      K * H * W * g + n * (G * K * H * W) + c * (H * W) + h * W + w < N * (G * K) * H * W := by
  have e : K * H * W * g + n * (G * K * H * W) + c * (H * W) + h * W + w =
      ((n * (G * K) + (g * K + c)) * H + h) * W + w := by ring
  have hcc : g * K + c < G * K := mixed_lt hg hc
  refine ⟨e, ?_, fun N hn => ?_⟩
  · rw [e, mixed_div hw, mixed_div hh, mixed_mod hcc, mixed_div hc]
  · rw [e]
    exact mixed_lt (mixed_lt (mixed_lt hn hcc) hh) hw

theorem mem_indices (d : TensorDesc) (base i : Nat) :
    i ∈ d.indices base ↔
      ∃ n, n < d.n ∧ ∃ c, c < d.c ∧ ∃ h, h < d.h ∧ ∃ w, w < d.w ∧
        base + n * d.nStride + c * d.cStride + h * d.hStride + w * d.wStride = i := by
  simp [TensorDesc.indices, List.mem_flatMap, List.mem_map, List.mem_range]

/-- Without overflow the values `Init` computes are the exact products. -/
theorem outDesc_exact (p : ConvolutionParam) (out : TBlob) (N G K H W g : Nat)
    (hshape : out.shape_ = [N, G * K, H, W]) (hp : p.num_group = G) (hG : 1 ≤ G)
    (hN : 1 ≤ N) (hK : 1 ≤ K) (hno : N * (G * K) * H * W < 2 ^ 32) (hg : g < G) :
    outDesc p out = ⟨N, K, H, W, G * K * H * W, H * W, W, 1⟩ ∧
    u64 (outOffset p out * g) = K * H * W * g := by
  have d0 : out.dim 0 = N := by simp [TBlob.dim, hshape]
  have d1 : out.dim 1 = G * K := by simp [TBlob.dim, hshape]
  have d2 : out.dim 2 = H := by simp [TBlob.dim, hshape]
  have d3 : out.dim 3 = W := by simp [TBlob.dim, hshape]
  have hdiv : G * K / G = K := Nat.mul_div_cancel_left _ hG
  have hCHW : G * K * H * W < 2 ^ 32 := by
    refine lt_of_le_of_lt ?_ hno
    calc G * K * H * W = 1 * (G * K * H * W) := (Nat.one_mul _).symm
      _ ≤ N * (G * K * H * W) := Nat.mul_le_mul_right _ hN
      _ = N * (G * K) * H * W := by ring
  have hKHW : K * H * W ≤ G * K * H * W := by
    calc K * H * W = 1 * (K * H * W) := (Nat.one_mul _).symm
      _ ≤ G * (K * H * W) := Nat.mul_le_mul_right _ hG
      _ = G * K * H * W := by ring
  have hns : u32 (u32 (G * K * H) * W) = G * K * H * W := by
    rw [u32_mul_u32, u32_of_lt hCHW]
  have hoff : u32 (u32 (K * H) * W) = K * H * W := by
    rw [u32_mul_u32, u32_of_lt (lt_of_le_of_lt hKHW hCHW)]
  have hcs : u32 (H * W) = H * W := by
    apply u32_of_lt
    refine lt_of_le_of_lt ?_ (lt_of_le_of_lt hKHW hCHW)
    calc H * W = 1 * (H * W) := (Nat.one_mul _).symm
      _ ≤ K * (H * W) := Nat.mul_le_mul_right _ hK
      _ = K * H * W := by ring
  constructor
  · simp only [outDesc, d0, d1, d2, d3, hp, hdiv, hns, hcs]
  · simp only [outOffset, d1, d2, d3, hp, hdiv, hoff]
    apply u64_of_lt
    calc K * H * W * g ≤ K * H * W * G := Nat.mul_le_mul_left _ hg.le
      _ = G * K * H * W := by ring
      _ < 2 ^ 32 := hCHW
      _ < 2 ^ 64 := by norm_num

theorem mem_groupWrites (p : ConvolutionParam) (out : TBlob) (N G K H W g i : Nat)
    (hshape : out.shape_ = [N, G * K, H, W]) (hp : p.num_group = G) (hG : 1 ≤ G)
    (hno : N * (G * K) * H * W < 2 ^ 32) (hg : g < G) :
    i ∈ groupWrites p out g ↔
      ∃ n, n < N ∧ ∃ c, c < K ∧ ∃ h, h < H ∧ ∃ w, w < W ∧
        K * H * W * g + n * (G * K * H * W) + c * (H * W) + h * W + w = i := by
  by_cases hNK : 1 ≤ N ∧ 1 ≤ K
  · obtain ⟨hd, hb⟩ := outDesc_exact p out N G K H W g hshape hp hG hNK.1 hNK.2 hno hg
    unfold groupWrites
    rw [mem_indices, hd, hb]
    simp only [Nat.mul_one]
  · have d0 : (outDesc p out).n = N := by simp [outDesc, TBlob.dim, hshape]
    have d1 : (outDesc p out).c = K := by
      simp [outDesc, TBlob.dim, hshape, hp, Nat.mul_div_cancel_left _ hG]
    unfold groupWrites
    rw [mem_indices, d0, d1]
    constructor
    · rintro ⟨n, hn, c, hc, -⟩
      exact absurd ⟨Nat.lt_of_le_of_lt (Nat.zero_le _) hn,
        Nat.lt_of_le_of_lt (Nat.zero_le _) hc⟩ hNK
    · rintro ⟨n, hn, c, hc, -⟩
      exact absurd ⟨Nat.lt_of_le_of_lt (Nat.zero_le _) hn,
        Nat.lt_of_le_of_lt (Nat.zero_le _) hc⟩ hNK

/-- C1: when `num_group >= 1` divides the output channel count C of a packed output
of shape (N, C, H, W) whose element count does not overflow 32 bits, the index sets
written by the group iterations of `Forward` (descriptor `out_desc_` as set in `Init`,
applied at `out.dptr_ + out_offset_ * g`) partition the output: every index below
N * C * H * W is written by exactly one group g < num_group, and no group writes an
index outside that range. -/
theorem C1_groups_partition_output (p : ConvolutionParam) (out : TBlob) (N C H W : Nat)
    (hshape : out.shape_ = [N, C, H, W]) (hG : 1 ≤ p.num_group) (hdiv : p.num_group ∣ C)
    (hno : N * C * H * W < 2 ^ 32) :
    (∀ i, i < N * C * H * W → ∃! g, g < p.num_group ∧ i ∈ groupWrites p out g) ∧
    (∀ g, g < p.num_group → ∀ i ∈ groupWrites p out g, i < N * C * H * W) := by
  obtain ⟨K, rfl⟩ := hdiv
  generalize hp : p.num_group = G at *
  constructor
  · intro i hi
    have hpos : 0 < N * (G * K) * H * W := Nat.lt_of_le_of_lt (Nat.zero_le _) hi
    have hW : 0 < W := by
      rcases Nat.eq_zero_or_pos W with h0 | h0
      · simp [h0] at hpos
      · exact h0
    have hH : 0 < H := by
      rcases Nat.eq_zero_or_pos H with h0 | h0
      · simp [h0] at hpos
      · exact h0
    have hK : 0 < K := by
      rcases Nat.eq_zero_or_pos K with h0 | h0
      · simp [h0] at hpos
      · exact h0
    have hGK : 0 < G * K := Nat.mul_pos hG hK
    have hq1 : i / W < N * (G * K) * H :=
      Nat.div_lt_of_lt_mul (by rw [Nat.mul_comm]; exact hi)
    have hq2 : i / W / H < N * (G * K) :=
      Nat.div_lt_of_lt_mul (by rw [Nat.mul_comm]; exact hq1)
    have hn : i / W / H / (G * K) < N :=
      Nat.div_lt_of_lt_mul (by rw [Nat.mul_comm]; exact hq2)
    have hg : i / W / H % (G * K) / K < G :=
      Nat.div_lt_of_lt_mul (by rw [Nat.mul_comm K G]; exact Nat.mod_lt _ hGK)
    have hc : i / W / H % (G * K) % K < K := Nat.mod_lt _ hK
    have hh : i / W % H < H := Nat.mod_lt _ hH
    have hw : i % W < W := Nat.mod_lt _ hW
    have hrec : K * H * W * (i / W / H % (G * K) / K) +
        i / W / H / (G * K) * (G * K * H * W) + i / W / H % (G * K) % K * (H * W) +
        i / W % H * W + i % W = i := by
      rw [(flat_index G K H W _ _ _ _ _ hg hc hh hw).1, Nat.div_add_mod', Nat.div_add_mod',
        Nat.div_add_mod', Nat.div_add_mod']
    refine ⟨i / W / H % (G * K) / K, ⟨hg, ?_⟩, ?_⟩
    · exact (mem_groupWrites p out N G K H W _ i hshape hp hG hno hg).2
        ⟨_, hn, _, hc, _, hh, _, hw, hrec⟩
    · rintro g' ⟨hg', hmem⟩
      obtain ⟨n, -, c, hc', h, hh', w, hw', e⟩ :=
        (mem_groupWrites p out N G K H W g' i hshape hp hG hno hg').1 hmem
      rw [← (flat_index G K H W g' n c h w hg' hc' hh' hw').2.1, e]
  · intro g hg i hi
    obtain ⟨n, hn, c, hc, h, hh, w, hw, e⟩ :=
      (mem_groupWrites p out N G K H W g i hshape hp hG hno hg).1 hi
    rw [← e]
    exact (flat_index G K H W g n c h w hg hc hh hw).2.2 N hn

/-- Witness of C1: two groups on the output 1x4x8x8 of the specification's scenario. -/
theorem C1_groups_partition_output_witness :
    args3.out.shape_ = [1, 4, 8, 8] ∧ 1 ≤ cfgGroups2.num_group ∧ cfgGroups2.num_group ∣ 4 ∧
    1 * 4 * 8 * 8 < 2 ^ 32 ∧
    (∀ i, i < 1 * 4 * 8 * 8 →
      ∃! g, g < cfgGroups2.num_group ∧ i ∈ groupWrites cfgGroups2 args3.out g) :=
  ⟨rfl, by decide, by decide, by decide,
    (C1_groups_partition_output cfgGroups2 args3.out 1 4 8 8 rfl (by decide) (by decide)
      (by decide)).1⟩

/-- The descriptor and offset used by `groupWrites` are the ones `Init` sets: the call
configuring `out_desc_` carries the shape and strides of `outDesc`, and the cached
`out_offset_` is `outOffset`. -/
theorem Init_sets_outDesc (T : DType) (v : CudnnVersion) (a : ForwardArgs)
    (op : CuDNNConvolutionOp) :
    Call.cudnnSetTensor4dDescriptorEx (a.backend.descriptor .out_desc_) op.dtype_
        (outDesc op.param_ a.out).n (outDesc op.param_ a.out).c (outDesc op.param_ a.out).h
        (outDesc op.param_ a.out).w (outDesc op.param_ a.out).nStride
        (outDesc op.param_ a.out).cStride (outDesc op.param_ a.out).hStride
        (outDesc op.param_ a.out).wStride ∈ initCalls T v a op ∧
    (initOp T v a op).out_offset_ = outOffset op.param_ a.out := by
  refine ⟨?_, rfl⟩
  cases hb : op.param_.no_bias <;> simp [initCalls, outDesc, hb]

end CuDNN
